import Mathlib

/-!
# Concourse broker: the team-provisioning client

A shallow embedding of `concourse/concourse.go` (the `concourseClient` with
`getAuthClient`, `getTeamName`, `CreateTeam`, `DeleteTeam`) together with the
configuration record of `config/config.go`.

The CI server is an external collaborator reached through the go-concourse
client interface.  It is embedded as a record of response functions over an
arbitrary server state, and every request the client issues is recorded, with
the response it got, in a trace carried by the `World`.

The file also embeds, from the vendored CI server: the retry, try and timeout
steps of `atc/exec`, whose nested steps act on an arbitrary state; the team
validation and the handler `SetTeam` of `atc/api/teamserver/set.go`; and the
container lookup of `atc/db/sqldb_containers.go`.
-/

namespace ConcourseBroker

/-! ## Data model -/

/-- A Go `error` value, observed through its message. `nil` is `none` in
`Option GoError`. -/
structure GoError where
  msg : String
deriving DecidableEq, Repr

/-- Modelled from the spec: the declaration of `cf.Details` is not among the
sources. The fields are those of TenantDetails (organization name,
organization GUID, space GUID); concourse.go reads `OrgName` and `SpaceGUID`. -/
structure Details where
  OrgName : String
  OrgGUID : String
  SpaceGUID : String
deriving DecidableEq, Repr

/-- The record `config.Env` of config.go. -/
structure Env where
  BrokerUsername : String
  BrokerPassword : String
  AdminUsername : String
  AdminPassword : String
  ConcourseURL : String
  CFURL : String
  TokenURL : String
  AuthURL : String
  ClientID : String
  ClientSecret : String
  LogLevel : String
  Port : String
  SkipSslValidation : String
deriving DecidableEq, Repr

/-- The type `atc.BasicAuth`, with the fields read by teamserver/set.go. -/
structure BasicAuth where
  BasicAuthUsername : String
  BasicAuthPassword : String
deriving DecidableEq, Repr

/-- The type `atc.GitHubAuth`, with the fields read by teamserver/set.go. -/
structure GitHubAuth where
  ClientID : String
  ClientSecret : String
  Organizations : List String
  Teams : List (String × String)
  Users : List String
deriving DecidableEq, Repr

/-- The type `atc.UAAAuth`, with the fields set by `CreateTeam`. -/
structure UAAAuth where
  ClientID : String
  ClientSecret : String
  AuthURL : String
  TokenURL : String
  CFSpaces : List String
  CFCACert : String
  CFURL : String
deriving DecidableEq, Repr

/-- The type `atc.GenericOAuth`, with the fields read by teamserver/set.go. -/
structure GenericOAuth where
  DisplayName : String
  ClientID : String
  ClientSecret : String
  AuthURL : String
  TokenURL : String
deriving DecidableEq, Repr

/-- The type `atc.Team`: a name and one optional (pointer) field per
authorization method. A Go composite literal leaves unnamed fields at their
zero value: the empty name and nil pointers. -/
structure Team where
  Name : String := ""
  BasicAuth : Option BasicAuth := none
  GitHubAuth : Option GitHubAuth := none
  UAAAuth : Option UAAAuth := none
  GenericOAuth : Option GenericOAuth := none
deriving DecidableEq, Repr

/-- The type `atc.AuthToken`: the token exchange answers a type and a value
(the Go field `Type` is written `Type_`). -/
structure AuthToken where
  Type_ : String
  Value : String
deriving DecidableEq, Repr

/-- The type `atc.AuthMethod`; `CreateTeam` only counts the entries. -/
structure AuthMethod where
  Type_ : String
  DisplayName : String
  AuthURL : String
deriving DecidableEq, Repr

/-! ## HTTP clients and the CI server interface -/

/-- The two HTTP clients built in the package: `newBasicAuthClient(username,
password)` and `newOAuthClient(tokenType, tokenValue)`. -/
inductive HttpClient where
  | basicAuth (username password : String)
  | oauth (tokenType tokenValue : String)
deriving DecidableEq, Repr

/-- Constructor `newBasicAuthClient`. -/
def newBasicAuthClient (username password : String) : HttpClient :=
  HttpClient.basicAuth username password

/-- Constructor `newOAuthClient`. -/
def newOAuthClient (tokenType tokenValue : String) : HttpClient :=
  HttpClient.oauth tokenType tokenValue

/-- A `concourse.Client`: what `concourse.NewClient(url, httpClient)` captures. -/
structure Client where
  url : String
  httpClient : HttpClient
deriving DecidableEq, Repr

/-- Constructor `concourse.NewClient`. -/
def NewConcourseClient (url : String) (httpClient : HttpClient) : Client :=
  { url := url, httpClient := httpClient }

/-- A `concourse.Team` handle: the result of `client.Team(name)`. -/
structure TeamHandle where
  client : Client
  name : String
deriving DecidableEq, Repr

/-- Method `Client.Team`. -/
def Client.Team (client : Client) (name : String) : TeamHandle :=
  { client := client, name := name }

/-- Modelled from the spec: the go-concourse client and the CI server behind it
are not among the sources. Section 6 gives the four operations the core uses:
`team.AuthToken()` answers a token, `team(name).ListAuthMethods()` a list,
`team(name).CreateOrUpdate(TeamConfig)` answers (savedTeam, created, updated,
err) and `team(name).DestroyTeam(name)` an err. Each takes the server state and
answers the Go return values together with the next server state. -/
structure CIServer (σ : Type) where
  AuthToken : TeamHandle → σ → (AuthToken × Option GoError) × σ
  ListAuthMethods : TeamHandle → σ → (List AuthMethod × Option GoError) × σ
  CreateOrUpdate : TeamHandle → Team → σ → (Team × Bool × Bool × Option GoError) × σ
  DestroyTeam : TeamHandle → String → σ → Option GoError × σ

/-- One request issued to the CI server, with the answer it got. -/
inductive Event where
  | AuthToken (team : TeamHandle) (token : AuthToken) (err : Option GoError)
  | ListAuthMethods (team : TeamHandle) (authMethods : List AuthMethod)
      (err : Option GoError)
  | CreateOrUpdate (team : TeamHandle) (config : Team) (saved : Team)
      (created updated : Bool) (err : Option GoError)
  | DestroyTeam (team : TeamHandle) (name : String) (err : Option GoError)
deriving DecidableEq, Repr

/-- Is the event a token exchange? -/
def Event.isAuthToken : Event → Bool
  | Event.AuthToken _ _ _ => true
  | _ => false

/-- Is the event an existence query? -/
def Event.isListAuthMethods : Event → Bool
  | Event.ListAuthMethods _ _ _ => true
  | _ => false

/-- Is the event a create-or-update request? -/
def Event.isCreateOrUpdate : Event → Bool
  | Event.CreateOrUpdate _ _ _ _ _ _ => true
  | _ => false

/-- Is the event a destroy-team request? -/
def Event.isDestroyTeam : Event → Bool
  | Event.DestroyTeam _ _ _ => true
  | _ => false

/-- A value of a `lager.Data` map. -/
inductive LagerValue where
  | str (s : String)
  | int (n : Nat)
deriving DecidableEq, Repr

/-- A `lager.Logger`, identified by its session path. -/
structure Logger where
  sessions : List String
deriving DecidableEq, Repr

/-- Method `Logger.Session`: a child logger. -/
def Logger.Session (l : Logger) (task : String) : Logger :=
  { sessions := l.sessions ++ [task] }

/-- One line written by `logger.Error(action, err, data)`. -/
structure LogEntry where
  logger : Logger
  action : String
  err : GoError
  data : List (String × LagerValue)
deriving DecidableEq, Repr

/-- Everything outside the client: the CI server state, the requests issued so
far (oldest first) and the log lines written so far. -/
structure World (σ : Type) where
  server : σ
  calls : List Event
  logs : List LogEntry

/-- A world in which nothing has been requested or logged yet. -/
def World.fresh {σ : Type} (s : σ) : World σ :=
  { server := s, calls := [], logs := [] }

/-- Method `Logger.Error`: append one log line. -/
def Logger.Error {σ : Type} (l : Logger) (action : String) (err : GoError)
    (data : List (String × LagerValue)) (w : World σ) : World σ :=
  { w with logs := w.logs ++ [{ logger := l, action := action, err := err, data := data }] }

/-- Request `team.AuthToken()`. -/
def TeamHandle.AuthToken {σ : Type} (srv : CIServer σ) (team : TeamHandle)
    (w : World σ) : (AuthToken × Option GoError) × World σ :=
  let r := srv.AuthToken team w.server
  (r.1, { w with server := r.2, calls := w.calls ++ [Event.AuthToken team r.1.1 r.1.2] })

/-- Request `team.ListAuthMethods()`. -/
def TeamHandle.ListAuthMethods {σ : Type} (srv : CIServer σ) (team : TeamHandle)
    (w : World σ) : (List AuthMethod × Option GoError) × World σ :=
  let r := srv.ListAuthMethods team w.server
  (r.1, { w with server := r.2, calls := w.calls ++ [Event.ListAuthMethods team r.1.1 r.1.2] })

/-- Request `team.CreateOrUpdate(config)`. -/
def TeamHandle.CreateOrUpdate {σ : Type} (srv : CIServer σ) (team : TeamHandle)
    (config : Team) (w : World σ) : (Team × Bool × Bool × Option GoError) × World σ :=
  let r := srv.CreateOrUpdate team config w.server
  (r.1, { w with server := r.2,
                 calls := w.calls ++
                   [Event.CreateOrUpdate team config r.1.1 r.1.2.1 r.1.2.2.1 r.1.2.2.2] })

/-- Request `team.DestroyTeam(name)`. -/
def TeamHandle.DestroyTeam {σ : Type} (srv : CIServer σ) (team : TeamHandle)
    (name : String) (w : World σ) : Option GoError × World σ :=
  let r := srv.DestroyTeam team name w.server
  (r.1, { w with server := r.2, calls := w.calls ++ [Event.DestroyTeam team name r.1] })

/-! ## The client (concourse.go) -/

/-- Constant `adminTeam`. -/
def adminTeam : String := "main"

/-- The struct `concourseClient`. -/
structure concourseClient where
  client : Client
  env : Env
  logger : Logger
deriving DecidableEq, Repr

/-- Function `NewClient`. -/
def NewClient (env : Env) (logger : Logger) : concourseClient :=
  let httpClient := newBasicAuthClient env.AdminUsername env.AdminPassword
  { client := NewConcourseClient env.ConcourseURL httpClient,
    env := env,
    logger := logger.Session "concourse-client" }

/-- Method `getAuthClient`: exchange the admin credentials for a token on the
admin team and build a client that carries the token. -/
def getAuthClient {σ : Type} (srv : CIServer σ) (c : concourseClient)
    (concourseURL : String) (w : World σ) : Except GoError Client × World σ :=
  let team := c.client.Team adminTeam
  match TeamHandle.AuthToken srv team w with
  | ((token, err), w1) =>
    match err with
    | some e => (Except.error e, w1)
    | none =>
      let httpClient := newOAuthClient token.Type_ token.Value
      (Except.ok (NewConcourseClient concourseURL httpClient), w1)

/-- Method `getTeamName`. -/
def getTeamName (_c : concourseClient) (details : Details) : String :=
  details.OrgName

/-- The error `fmt.Errorf("Team %s already exists", teamName)`. -/
def teamAlreadyExists (teamName : String) : GoError :=
  { msg := "Team " ++ teamName ++ " already exists" }

/-- The error `errors.New("Unable to provision instance")`. -/
def unableToProvision : GoError :=
  { msg := "Unable to provision instance" }

/-- Method `CreateTeam`. -/
def CreateTeam {σ : Type} (srv : CIServer σ) (c : concourseClient) (details : Details)
    (w : World σ) : Option GoError × World σ :=
  let teamName := getTeamName c details
  let team : Team :=
    { UAAAuth := some
        { ClientID := c.env.ClientID,
          ClientSecret := c.env.ClientSecret,
          AuthURL := c.env.AuthURL,
          TokenURL := c.env.TokenURL,
          CFSpaces := [details.SpaceGUID],
          CFCACert := "",
          CFURL := c.env.CFURL } }
  match getAuthClient srv c c.env.ConcourseURL w with
  | (Except.error err, w1) =>
    (some err, c.logger.Error "create-team.auth-client-error" err [] w1)
  | (Except.ok client, w1) =>
    match TeamHandle.ListAuthMethods srv (client.Team teamName) w1 with
    | ((authMethods, err), w2) =>
      if err.isNone || decide (authMethods.length > 0) then
        let err := teamAlreadyExists teamName
        (some err,
          c.logger.Error "create-team.existing-team-error" err
            [("team-name", LagerValue.str teamName),
             ("auth-methods-size", LagerValue.int authMethods.length)] w2)
      else
        match TeamHandle.CreateOrUpdate srv (client.Team teamName) team w2 with
        | ((_, created, updated, err), w3) =>
          match err with
          | some e =>
            (some e,
              c.logger.Error "create-team.unknown-create-error" e
                [("team-name", LagerValue.str teamName)] w3)
          | none =>
            if !created || updated then
              let err := unableToProvision
              (some err,
                c.logger.Error "create-team.unknown-create-error" err
                  [("team-name", LagerValue.str teamName)] w3)
            else
              (none, w3)

/-- Method `DeleteTeam`. -/
def DeleteTeam {σ : Type} (srv : CIServer σ) (c : concourseClient) (details : Details)
    (w : World σ) : Option GoError × World σ :=
  let teamName := getTeamName c details
  match getAuthClient srv c c.env.ConcourseURL w with
  | (Except.error err, w1) =>
    (some err, c.logger.Error "delete-team.auth-client-error" err [] w1)
  | (Except.ok client, w1) =>
    match TeamHandle.DestroyTeam srv (client.Team details.OrgName) teamName w1 with
    | (err, w2) =>
      match err with
      | some e =>
        (some e,
          c.logger.Error "delete-team.unknown-delete-error" e
            [("team-name", LagerValue.str teamName)] w2)
      | none => (none, w2)

/-! ## Test doubles for the CI server -/

/-- A CI server that gives the same four answers whatever it is asked. -/
def cannedServer (token : AuthToken × Option GoError)
    (methods : List AuthMethod × Option GoError)
    (saved : Team × Bool × Bool × Option GoError)
    (destroyed : Option GoError) : CIServer Unit where
  AuthToken := fun _ s => (token, s)
  ListAuthMethods := fun _ s => (methods, s)
  CreateOrUpdate := fun _ _ s => (saved, s)
  DestroyTeam := fun _ _ s => (destroyed, s)

/-- The number of create-or-update requests in a trace. -/
def createOrUpdateCount (calls : List Event) : Nat :=
  calls.countP Event.isCreateOrUpdate

/-- The number of existence queries in a trace. -/
def listAuthMethodsCount (calls : List Event) : Nat :=
  calls.countP Event.isListAuthMethods

/-- The number of destroy-team requests in a trace. -/
def destroyTeamCount (calls : List Event) : Nat :=
  calls.countP Event.isDestroyTeam

/-- The authorized client `getAuthClient` builds from a token, for the
configured CI server URL. -/
def authClient (c : concourseClient) (token : AuthToken) : Client :=
  NewConcourseClient c.env.ConcourseURL (newOAuthClient token.Type_ token.Value)

/-- The team configuration `CreateTeam` builds (the `atc.Team` literal). -/
def teamConfig (c : concourseClient) (details : Details) : Team :=
  { UAAAuth := some
      { ClientID := c.env.ClientID,
        ClientSecret := c.env.ClientSecret,
        AuthURL := c.env.AuthURL,
        TokenURL := c.env.TokenURL,
        CFSpaces := [details.SpaceGUID],
        CFCACert := "",
        CFURL := c.env.CFURL } }

/-- What `CreateTeam` returns once create-or-update has answered: the error of
the request if any, the unexpected-state error unless the answer is created
and not updated, and nil otherwise. -/
def createOutcome (created updated : Bool) (err : Option GoError) : Option GoError :=
  match err with
  | some e => some e
  | none => if !created || updated then some unableToProvision else none

/-- What `CreateTeam` logs once create-or-update has answered: one
`create-team.unknown-create-error` line carrying the error it returns. -/
def createLogs (c : concourseClient) (teamName : String) (result : Option GoError) :
    List LogEntry :=
  match result with
  | some e =>
    [{ logger := c.logger, action := "create-team.unknown-create-error", err := e,
       data := [("team-name", LagerValue.str teamName)] }]
  | none => []

/-- What `DeleteTeam` logs once the destroy request has answered: one
`delete-team.unknown-delete-error` line when it failed. -/
def destroyLogs (c : concourseClient) (teamName : String) (result : Option GoError) :
    List LogEntry :=
  match result with
  | some e =>
    [{ logger := c.logger, action := "delete-team.unknown-delete-error", err := e,
       data := [("team-name", LagerValue.str teamName)] }]
  | none => []

/-- Was the line `create-team.existing-team-error` logged? -/
def loggedExistingTeam (logs : List LogEntry) : Bool :=
  logs.any (fun l => l.action == "create-team.existing-team-error")

/-- A CI-server model in which a team created with a UAA auth config afterwards
reports at least one authorization method: once create-or-update has answered
created and not updated, without error, for a configuration carrying UAA auth,
the existence query on that team name, issued after the next successful token
exchange, lists one method or more. -/
def ReportsCreatedTeams {σ : Type} (srv : CIServer σ) : Prop :=
  ∀ (h : TeamHandle) (config saved : Team) (s s3 : σ),
    config.UAAAuth.isSome = true →
    srv.CreateOrUpdate h config s = ((saved, true, false, none), s3) →
    ∀ (a q : TeamHandle) (tok : AuthToken) (s4 : σ),
      q.name = h.name →
      srv.AuthToken a s3 = ((tok, none), s4) →
      0 < (srv.ListAuthMethods q s4).1.1.length

/-- The stored team of a given name, if any. -/
def findTeam (name : String) : List Team → Option Team
  | [] => none
  | t :: ts => if t.Name = name then some t else findTeam name ts

/-- The authorization methods a stored team reports: one per configured method. -/
def authMethodsOf (t : Team) : List AuthMethod :=
  (if t.BasicAuth.isSome then
    [{ Type_ := "basic", DisplayName := "Basic Auth", AuthURL := "/auth/basic/token" }]
   else []) ++
  (if t.GitHubAuth.isSome then
    [{ Type_ := "oauth", DisplayName := "GitHub", AuthURL := "/auth/github" }]
   else []) ++
  (if t.UAAAuth.isSome then
    [{ Type_ := "oauth", DisplayName := "UAA", AuthURL := "/auth/uaa" }]
   else []) ++
  (if t.GenericOAuth.isSome then
    [{ Type_ := "oauth", DisplayName := "OAuth", AuthURL := "/auth/oauth" }]
   else [])

/-- The error an in-memory CI server answers for an absent team. -/
def resourceNotFound : GoError :=
  { msg := "resource not found" }

/-- An in-memory CI server whose state is its team table. Token exchange always
succeeds; the existence query answers the stored team's methods, or not-found;
create-or-update follows `SetTeam` of teamserver/set.go (an existing team is
updated, an absent one created under the requested name); destroy removes the
team or answers not-found. -/
def memoryServer : CIServer (List Team) where
  AuthToken := fun _ db =>
    (({ Type_ := "Bearer", Value := "admin-token" }, none), db)
  ListAuthMethods := fun h db =>
    match findTeam h.name db with
    | some t => ((authMethodsOf t, none), db)
    | none => (([], some resourceNotFound), db)
  CreateOrUpdate := fun h config db =>
    match findTeam h.name db with
    | some _ =>
      (({ config with Name := h.name }, false, true, none),
        { config with Name := h.name } :: db.filter (fun t => decide (t.Name ≠ h.name)))
    | none =>
      (({ config with Name := h.name }, true, false, none),
        { config with Name := h.name } :: db)
  DestroyTeam := fun _ name db =>
    match findTeam name db with
    | some _ => (none, db.filter (fun t => decide (t.Name ≠ name)))
    | none => (some resourceNotFound, db)

/-- A sample configuration. -/
def sampleEnv : Env :=
  { BrokerUsername := "broker", BrokerPassword := "secret",
    AdminUsername := "user", AdminPassword := "password",
    ConcourseURL := "https://ci.example.com", CFURL := "https://api.example.com",
    TokenURL := "https://uaa.example.com/oauth/token",
    AuthURL := "https://login.example.com/oauth/authorize",
    ClientID := "concourse", ClientSecret := "client-secret",
    LogLevel := "INFO", Port := "3000", SkipSslValidation := "false" }

/-- The client built from the sample configuration. -/
def sampleClient : concourseClient :=
  NewClient sampleEnv { sessions := ["concourse-broker"] }

/-- The tenant of the scenarios: organization "acme", space "s1". -/
def acme : Details :=
  { OrgName := "acme", OrgGUID := "g1", SpaceGUID := "s1" }

/-- A tenant of another organization and space that carries the same
organization name. -/
def acmeTwin : Details :=
  { OrgName := "acme", OrgGUID := "g2", SpaceGUID := "s2" }

/-- A tenant of a different organization name. -/
def globex : Details :=
  { OrgName := "globex", OrgGUID := "g1", SpaceGUID := "s1" }

/-- A tenant with an empty organization name. -/
def nameless : Details :=
  { OrgName := "", OrgGUID := "g1", SpaceGUID := "s1" }

/-- A token a CI server may answer. -/
def bearer : AuthToken :=
  { Type_ := "Bearer", Value := "admin-token" }

/-- One authorization method. -/
def uaaMethod : AuthMethod :=
  { Type_ := "oauth", DisplayName := "UAA", AuthURL := "/auth/uaa" }

/-! ## Observations on traces, and the provisioning service -/

/-- The team handle a request was issued on. -/
def Event.team : Event → TeamHandle
  | Event.AuthToken team _ _ => team
  | Event.ListAuthMethods team _ _ => team
  | Event.CreateOrUpdate team _ _ _ _ _ => team
  | Event.DestroyTeam team _ _ => team

/-- The four operations of the CI server the client uses. -/
inductive Operation where
  | AuthToken
  | ListAuthMethods
  | CreateOrUpdate
  | DestroyTeam
deriving DecidableEq, Repr

/-- The operation a request belongs to. -/
def Event.operation : Event → Operation
  | Event.AuthToken _ _ _ => Operation.AuthToken
  | Event.ListAuthMethods _ _ _ => Operation.ListAuthMethods
  | Event.CreateOrUpdate _ _ _ _ _ _ => Operation.CreateOrUpdate
  | Event.DestroyTeam _ _ _ => Operation.DestroyTeam

/-- The number of token exchanges in a trace. -/
def authTokenCount (calls : List Event) : Nat :=
  calls.countP Event.isAuthToken

/-- The platform OAuth identity of a team configuration: the configuration
with the list of authorized spaces left out. -/
def Team.identity (t : Team) : Team :=
  { t with UAAAuth := t.UAAAuth.map (fun u => { u with CFSpaces := [] }) }

/-- A call on the Team Client: one of the two methods of the interface
`Client`, with its argument. -/
inductive ClientCall where
  | CreateTeam (details : Details)
  | DeleteTeam (details : Details)
deriving DecidableEq, Repr

/-- Perform one call on the client. -/
def ClientCall.perform {σ : Type} (srv : CIServer σ) (c : concourseClient) :
    ClientCall → World σ → Option GoError × World σ
  | ClientCall.CreateTeam details, w => ConcourseBroker.CreateTeam srv c details w
  | ClientCall.DeleteTeam details, w => ConcourseBroker.DeleteTeam srv c details w

/-- Perform a sequence of calls on the same client, one after the other,
dropping their results. -/
def performAll {σ : Type} (srv : CIServer σ) (c : concourseClient) :
    List ClientCall → World σ → World σ
  | [], w => w
  | call :: rest, w => performAll srv c rest (call.perform srv c w).2

/-- The three broker outcomes of a provision request. -/
inductive ProvisionOutcome where
  | created
  | conflict
  | internalError (err : GoError)
deriving DecidableEq, Repr

/-- Modelled from the spec: the package `broker` (the Provisioning Service) is
not among the sources; only its caller `main` and the interface `Client` it
consumes are. Section 4.2: `Provision(instanceID, details)` calls Team
Client.CreateTeam(details) and maps success to OSB "created",
TeamAlreadyExists to OSB "conflict" and any other client error to an OSB
internal error. The team-already-exists error is the one `CreateTeam` builds
for the derived team name. -/
def Provision {σ : Type} (srv : CIServer σ) (c : concourseClient) (_instanceID : String)
    (details : Details) (w : World σ) : ProvisionOutcome × World σ :=
  match CreateTeam srv c details w with
  | (none, w1) => (ProvisionOutcome.created, w1)
  | (some err, w1) =>
    if err = teamAlreadyExists (getTeamName c details) then
      (ProvisionOutcome.conflict, w1)
    else
      (ProvisionOutcome.internalError err, w1)

/-! ## The retry step (atc/exec/retry.go) -/

/-- An error value as the package `exec` tells errors apart: the value
`ErrInterrupted`, which `Run` compares by identity, or any other error. -/
inductive ExecError where
  | ErrInterrupted
  | other (err : GoError)
deriving DecidableEq, Repr

/-- The type of the destination passed to `Result(x interface{})`: a pointer to
a `Success`, or a pointer to a value of another type. -/
inductive DestType where
  | Success
  | Other (typeName : String)
deriving DecidableEq, Repr

/-- The values a destination of a given type holds: a `Success` is a bool; the
values of other types are kept as text. -/
def DestType.Val : DestType → Type
  | DestType.Success => Bool
  | DestType.Other _ => String

/-- The interface `Step` as retry.go, try_step.go and timeout_step.go use it:
`Run(signals, ready) error`, `Release()` and `Result(x interface{}) bool`. A
step acts on a state `σ` that stands for everything outside the caller (the
signals it receives included); `Result` answers its bool together with the
value it leaves in the destination. -/
structure Step (σ : Type) where
  Run : σ → Option ExecError × σ
  Release : σ → σ
  Result : (t : DestType) → t.Val → σ → (Bool × t.Val) × σ

/-- The struct `RetryStep`; `LastAttempt` is nil until `Run` sets it. -/
structure RetryStep (σ : Type) where
  Attempts : List (Step σ)
  LastAttempt : Option (Step σ)

/-- The state the steps act on, with the positions (counted from 1) of the
attempts whose `Run` was invoked and of those whose `Result` the retry loop
consulted, oldest first. -/
structure Execution (σ : Type) where
  state : σ
  ran : List Nat
  consulted : List Nat

/-- An execution in which no attempt has been run yet. -/
def Execution.fresh {σ : Type} (s : σ) : Execution σ :=
  { state := s, ran := [], consulted := [] }

/-- The loop of `RetryStep.Run` over the attempts still to try: `position` is
the position of the next attempt and `attemptErr` the variable of that name. -/
def RetryStep.loop {σ : Type} : List (Step σ) → Nat → RetryStep σ → Option ExecError →
    Execution σ → Option ExecError × RetryStep σ × Execution σ
  | [], _, step, attemptErr, x => (attemptErr, step, x)
  | attempt :: rest, position, step, _, x =>
    let step1 : RetryStep σ := { step with LastAttempt := some attempt }
    match attempt.Run x.state with
    | (some ExecError.ErrInterrupted, s1) =>
      (some ExecError.ErrInterrupted, step1,
        { state := s1, ran := x.ran ++ [position], consulted := x.consulted })
    | (some (ExecError.other err), s1) =>
      RetryStep.loop rest (position + 1) step1 (some (ExecError.other err))
        { state := s1, ran := x.ran ++ [position], consulted := x.consulted }
    | (none, s1) =>
      match attempt.Result DestType.Success false s1 with
      | ((ok, succeeded), s2) =>
        if ok && succeeded then
          (none, step1,
            { state := s2, ran := x.ran ++ [position],
              consulted := x.consulted ++ [position] })
        else
          RetryStep.loop rest (position + 1) step1 none
            { state := s2, ran := x.ran ++ [position],
              consulted := x.consulted ++ [position] }

/-- Method `RetryStep.Run`: try the attempts in order, stopping once one
succeeds or is interrupted. -/
def RetryStep.Run {σ : Type} (step : RetryStep σ) (x : Execution σ) :
    Option ExecError × RetryStep σ × Execution σ :=
  RetryStep.loop step.Attempts 1 step none x

/-- Method `RetryStep.Release`: release each attempt. -/
def RetryStep.Release {σ : Type} (step : RetryStep σ) (s : σ) : σ :=
  step.Attempts.foldl (fun acc src => src.Release acc) s

/-- Method `RetryStep.Result`: delegate to the last attempt; with a nil
`LastAttempt` the call panics, which is `none`. -/
def RetryStep.Result {σ : Type} (step : RetryStep σ) (t : DestType) (v : t.Val) (s : σ) :
    Option ((Bool × t.Val) × σ) :=
  match step.LastAttempt with
  | some attempt => some (attempt.Result t v s)
  | none => none

/-- What an attempt does when it is run and, if it ran without error, asked for
its `Success`. -/
inductive AttemptOutcome where
  | interrupted
  | errored (err : GoError)
  | failed
  | succeeded
deriving DecidableEq, Repr

/-- Run an attempt and, if it ran without error, ask it for its `Success`: it
succeeds when `Result` answers true and sets the `Success` to true. -/
def Step.attempt {σ : Type} (a : Step σ) (s : σ) : AttemptOutcome × σ :=
  match a.Run s with
  | (some ExecError.ErrInterrupted, s1) => (AttemptOutcome.interrupted, s1)
  | (some (ExecError.other err), s1) => (AttemptOutcome.errored err, s1)
  | (none, s1) =>
    match a.Result DestType.Success false s1 with
    | ((ok, succeeded), s2) =>
      if ok && succeeded then (AttemptOutcome.succeeded, s2) else (AttemptOutcome.failed, s2)

/-- What each attempt of a list does, every attempt taken in the state the one
before it left. -/
def outcomes {σ : Type} : List (Step σ) → σ → List AttemptOutcome
  | [], _ => []
  | a :: rest, s => (a.attempt s).1 :: outcomes rest (a.attempt s).2

/-- Attempt `k` (counted from 1) is the first attempt of the list that runs
without error and reports `Success` true. -/
def FirstSuccessAt {σ : Type} (attempts : List (Step σ)) (s : σ) (k : Nat) : Prop :=
  0 < k ∧ (outcomes attempts s)[k - 1]? = some AttemptOutcome.succeeded ∧
    AttemptOutcome.succeeded ∉ (outcomes attempts s).take (k - 1)

/-- A step whose `Run` answers a fixed error value and whose `Result` sets a
`Success` to a fixed value, as the fake steps of retry_test.go do. -/
def stubStep (runs : Option ExecError) (success : Bool) : Step Unit where
  Run := fun s => (runs, s)
  Release := fun s => s
  Result := fun t v s =>
    match t, v with
    | DestType.Success, _ => ((true, success), s)
    | DestType.Other _, v => ((false, v), s)

/-- Three attempts: the first is interrupted, the second and third would run
without error and report `Success` true. -/
def interruptedThenSuccess : List (Step Unit) :=
  [stubStep (some ExecError.ErrInterrupted) false, stubStep none true, stubStep none true]

/-- Three attempts as in retry_test.go, "when attempt 1 errors, and attempt 2
succeeds". -/
def errorThenSuccess : List (Step Unit) :=
  [stubStep (some (ExecError.other { msg := "nope" })) false, stubStep none true,
   stubStep none false]

/-- An attempt reports again what it reported: asked for a `Success` in the
state an earlier asking left, whatever the destination holds, it reports
success exactly when it did at that earlier asking. -/
def Step.AnswersAgain {σ : Type} (a : Step σ) : Prop :=
  ∀ (v : Bool) (s : σ),
    ((a.Result DestType.Success v (a.Result DestType.Success false s).2).1.1 &&
      (a.Result DestType.Success v (a.Result DestType.Success false s).2).1.2) =
    ((a.Result DestType.Success false s).1.1 && (a.Result DestType.Success false s).1.2)

/-- The retry step is a failure after `Run`: `Run` returned a non-nil error, or
`Result`, asked for a `Success` in the state `Run` left, reports it as false
(it does not both answer true and leave the `Success` true). -/
def RetryStep.Failed {σ : Type} (attemptErr : Option ExecError) (step : RetryStep σ)
    (s : σ) : Prop :=
  attemptErr ≠ none ∨
    ∀ v : Bool, ∃ r : (Bool × Bool) × σ,
      step.Result DestType.Success v s = some r ∧ (r.1.1 && r.1.2) = false

/-- Two attempts: the first is interrupted, the second returns an error. -/
def interruptedThenError : List (Step Unit) :=
  [stubStep (some ExecError.ErrInterrupted) false,
   stubStep (some (ExecError.other { msg := "nope" })) false]

/-- Three attempts as in retry_test.go, "when attempt 1 fails, attempt 2 fails,
and attempt 3 errors". -/
def failFailError : List (Step Unit) :=
  [stubStep none false, stubStep none false,
   stubStep (some (ExecError.other { msg := "nope" })) false]

/-- Two attempts as in retry_test.go that both run without error and report
`Success` false. -/
def failFail : List (Step Unit) :=
  [stubStep none false, stubStep none false]

/-- A step that runs without error and counts in its state how often its
`Result` is asked: the first time it sets a `Success` to false, every later
time to true. -/
def fickleStep : Step Nat where
  Run := fun n => (none, n)
  Release := fun n => n
  Result := fun t v n =>
    match t, v with
    | DestType.Success, _ => ((true, decide (0 < n)), n + 1)
    | DestType.Other _, v => ((false, v), n)

/-- Three attempts as in retry_test.go, "when attempt 1 errors, and attempt 2
is interrupted". -/
def errorThenInterrupted : List (Step Unit) :=
  [stubStep (some (ExecError.other { msg := "nope" })) false,
   stubStep (some ExecError.ErrInterrupted) false, stubStep none true]

/-! ## The try step and the timeout step (atc/exec) -/

/-- The struct `TryStep`, once `Using` has built the nested step: the field
`runStep`. The factory field `step` is only read by `Using`. -/
structure TryStep (σ : Type) where
  runStep : Step σ

/-- Method `TryStep.Run`: run the nested step; `ErrInterrupted` is returned,
any other result becomes nil. -/
def TryStep.Run {σ : Type} (ts : TryStep σ) (s : σ) : Option ExecError × σ :=
  match ts.runStep.Run s with
  | (some ExecError.ErrInterrupted, s1) => (some ExecError.ErrInterrupted, s1)
  | (_, s1) => (none, s1)

/-- Method `TryStep.Release`. -/
def TryStep.Release {σ : Type} (ts : TryStep σ) (s : σ) : σ :=
  ts.runStep.Release s

/-- Method `TryStep.Result`: a `Success` is set to true; every other
destination goes to the nested step. -/
def TryStep.Result {σ : Type} (ts : TryStep σ) (t : DestType) (v : t.Val) (s : σ) :
    (Bool × t.Val) × σ :=
  match t, v with
  | DestType.Success, _ => ((true, true), s)
  | DestType.Other name, v => ts.runStep.Result (DestType.Other name) v s

/-- The struct `TimeoutStep`, once `Using` has built the nested step: the
fields `runStep`, `duration` and `timedOut`. The factory field `step` is only
read by `Using` and the field `clock` only by `Run`. -/
structure TimeoutStep (σ : Type) where
  runStep : Step σ
  duration : String
  timedOut : Bool

/-- Method `TimeoutStep.Result`: for a `Success`, ask the nested step with a
fresh `Success`, set the destination to that value and not timed out, and
answer true; any other destination is ignored. -/
def TimeoutStep.Result {σ : Type} (ts : TimeoutStep σ) (t : DestType) (v : t.Val) (s : σ) :
    (Bool × t.Val) × σ :=
  match t, v with
  | DestType.Success, _ =>
    match ts.runStep.Result DestType.Success false s with
    | ((_, success), s1) => ((true, success && !ts.timedOut), s1)
  | DestType.Other _, v => ((false, v), s)

/-- A step that counts in its state how often its `Result` is asked; it runs
without error and sets a `Success` to true. -/
def countingStep : Step Nat where
  Run := fun n => (none, n)
  Release := fun n => n
  Result := fun t v n =>
    match t, v with
    | DestType.Success, _ => ((true, true), n + 1)
    | DestType.Other _, v => ((true, v), n + 1)

/-- A try step around a nested step that is interrupted. -/
def interruptedTry : TryStep Unit :=
  { runStep := stubStep (some ExecError.ErrInterrupted) false }

/-- A try step around a nested step that returns an error. -/
def erroringTry : TryStep Unit :=
  { runStep := stubStep (some (ExecError.other { msg := "nope" })) false }

/-! ## The CI server's team endpoint (atc/api/teamserver/set.go) -/

/-- Method `Server.validate`, on the fields of `db.Team` it reads. The
parameter `validCertificate` stands for the two library calls made on a
non-empty CA certificate, `pem.Decode` and `x509.ParseCertificate`: it is true
when a block is found and parses. -/
def validate (validCertificate : String → Bool) (team : Team) : Except GoError Unit := do
  match team.BasicAuth with
  | some basicAuth =>
    if basicAuth.BasicAuthUsername = "" ∨ basicAuth.BasicAuthPassword = "" then
      throw { msg := "basic auth missing BasicAuthUsername or BasicAuthPassword" }
  | none => pure ()
  match team.GitHubAuth with
  | some gitHubAuth =>
    if gitHubAuth.ClientID = "" ∨ gitHubAuth.ClientSecret = "" then
      throw { msg := "GitHub auth missing ClientID or ClientSecret" }
    if gitHubAuth.Organizations.length = 0 ∧ gitHubAuth.Teams.length = 0 ∧
        gitHubAuth.Users.length = 0 then
      throw { msg := "GitHub auth requires at least one Organization, Team, or User" }
  | none => pure ()
  match team.UAAAuth with
  | some uaaAuth =>
    if uaaAuth.ClientID = "" ∨ uaaAuth.ClientSecret = "" then
      throw { msg := "CF auth missing ClientID or ClientSecret" }
    if uaaAuth.CFCACert ≠ "" then
      if validCertificate uaaAuth.CFCACert = false then
        throw { msg := "CF certificate is invalid" }
    if uaaAuth.CFSpaces.length = 0 then
      throw { msg := "CF auth requires at least one Space" }
    if uaaAuth.AuthURL = "" ∨ uaaAuth.TokenURL = "" ∨ uaaAuth.CFURL = "" then
      throw { msg := "CF auth requires AuthURL, TokenURL and APIURL" }
  | none => pure ()
  match team.GenericOAuth with
  | some genericOAuth =>
    if genericOAuth.ClientID = "" ∨ genericOAuth.ClientSecret = "" then
      throw { msg := "Generic OAuth requires ClientID and ClientSecret" }
    if genericOAuth.AuthURL = "" ∨ genericOAuth.TokenURL = "" then
      throw { msg := "Generic OAuth requires an AuthURL and TokenURL" }
    if genericOAuth.DisplayName = "" then
      throw { msg := "Generic OAuth requires a Display Name" }
  | none => pure ()
  return ()

/-- The configuration of concourse_suite_test.go: only the admin credentials
and the Concourse URL are set. -/
def suiteEnv (concourseURL : String) : Env :=
  { BrokerUsername := "", BrokerPassword := "",
    AdminUsername := "user", AdminPassword := "password",
    ConcourseURL := concourseURL, CFURL := "", TokenURL := "", AuthURL := "",
    ClientID := "", ClientSecret := "", LogLevel := "", Port := "",
    SkipSslValidation := "" }

/-! ## Containers (atc/db/sqldb_containers.go) -/

/-- An error value as the package `db` tells errors apart: its own values
`ErrInvalidIdentifier` and `ErrMultipleContainersFound`, or an error that comes
from a library call (`json.Marshal`, the SQL connection, row scanning). -/
inductive DBError where
  | ErrInvalidIdentifier
  | ErrMultipleContainersFound
  | other (err : GoError)
deriving DecidableEq, Repr

/-- The type `ContainerIdentifier`, with the fields sqldb_containers.go reads.
The maps `atc.Version` and `atc.Source` are lists of pairs; a nil map is
`none`. `ContainerStage` and `atc.PlanID` are strings. -/
structure ContainerIdentifier where
  ResourceID : Int
  ResourceTypeVersion : Option (List (String × String))
  CheckType : String
  CheckSource : Option (List (String × String))
  BuildID : Int
  PlanID : String
  Stage : String
  ImageResourceType : String
  ImageResourceSource : Option (List (String × String))
deriving DecidableEq, Repr

/-- Constant `ContainerStageCheck`. -/
def ContainerStageCheck : String := "check"

/-- Constant `ContainerStageGet`. -/
def ContainerStageGet : String := "get"

/-- Constant `ContainerStageRun`. -/
def ContainerStageRun : String := "run"

/-- Function `isValidCheckID`. -/
def isValidCheckID (id : ContainerIdentifier) : Bool :=
  if !((decide (id.ResourceID > 0) || id.ResourceTypeVersion.isSome) &&
      decide (id.CheckType ≠ "") &&
      id.CheckSource.isSome &&
      decide (id.BuildID = 0) &&
      decide (id.PlanID = "")) then
    false
  else if id.Stage = ContainerStageCheck ∨ id.Stage = ContainerStageGet then
    decide (id.ImageResourceType ≠ "") && id.ImageResourceSource.isSome
  else if id.Stage = ContainerStageRun then
    decide (id.ImageResourceType = "") && id.ImageResourceSource.isNone
  else
    false

/-- Function `isValidStepID`. -/
def isValidStepID (id : ContainerIdentifier) : Bool :=
  if !(decide (id.ResourceID = 0) &&
      decide (id.CheckType = "") &&
      id.CheckSource.isNone &&
      decide (id.BuildID > 0) &&
      decide (id.PlanID ≠ "")) then
    false
  else if id.Stage = ContainerStageCheck ∨ id.Stage = ContainerStageGet then
    decide (id.ImageResourceType ≠ "") && id.ImageResourceSource.isSome
  else if id.Stage = ContainerStageRun then
    decide (id.ImageResourceType = "") && id.ImageResourceSource.isNone
  else
    false

/-- The type `SavedContainer`, of which the claims only move values around:
three of the fields `scanContainer` fills are kept. The zero value
`SavedContainer{}` is `SavedContainer.zero`. -/
structure SavedContainer where
  ID : Int
  Handle : String
  WorkerName : String
deriving DecidableEq, Repr

/-- The zero value `SavedContainer{}`. -/
def SavedContainer.zero : SavedContainer :=
  { ID := 0, Handle := "", WorkerName := "" }

/-- Function `scanRows`, the loop over `rows.Next()`: `rows` are the rows still
to come and `containers` the variable of that name. The parameter
`scanContainer` stands for the function of that name, which reads one row
through `row.Scan` and the JSON decoder and answers a container or an error. -/
def scanRows.loop {ρ : Type} (scanContainer : ρ → SavedContainer × Option GoError) :
    List ρ → List SavedContainer → List SavedContainer × Option DBError
  | [], containers => (containers, none)
  | row :: rows, containers =>
    match scanContainer row with
    | (_, some _) => ([], none)
    | (container, none) => scanRows.loop scanContainer rows (containers ++ [container])

/-- Function `scanRows`; a nil slice is the empty list. -/
def scanRows {ρ : Type} (scanContainer : ρ → SavedContainer × Option GoError)
    (rows : List ρ) : List SavedContainer × Option DBError :=
  scanRows.loop scanContainer rows []

/-- A query parameter (`interface{}`): an int, a string or a byte slice. -/
inductive Param where
  | int (n : Int)
  | str (s : String)
  | bytes (b : String)
deriving DecidableEq, Repr

/-- The connection `db.conn`, as far as `Query` goes: a query with its
parameters answers rows or an error and moves the database state. -/
structure Conn (σ ρ : Type) where
  Query : String → List Param → σ → (List ρ × Option GoError) × σ

/-- The database state with the queries issued so far, oldest first. -/
structure DBWorld (σ : Type) where
  state : σ
  queries : List (String × List Param)

/-- A database world in which nothing has been queried yet. -/
def DBWorld.fresh {σ : Type} (s : σ) : DBWorld σ :=
  { state := s, queries := [] }

/-- Constant `containerColumns`. -/
def containerColumns : String :=
  "worker_name, resource_id, check_type, check_source, build_id, plan_id, stage, handle, b.name as build_name, r.name as resource_name, p.id as pipeline_id, p.name as pipeline_name, j.name as job_name, step_name, type, working_directory, env_variables, attempts, process_user, ttl, EXTRACT(epoch FROM expires_at - NOW()), c.id, resource_type_version, c.team_id"

/-- Constant `containerJoins`. -/
def containerJoins : String :=
  "\n\t\tLEFT JOIN pipelines p\n\t\t  ON p.id = c.pipeline_id\n\t\tLEFT JOIN resources r\n\t\t\tON r.id = c.resource_id\n\t\tLEFT JOIN builds b\n\t\t  ON b.id = c.build_id\n\t\tLEFT JOIN jobs j\n\t\t  ON j.id = b.job_id"

/-- The closure `addParam` of `FindContainerByIdentifier`, on the pair of the
variables `conditions` and `params`. -/
def addParam (column : String) (param : Param) (q : List String × List Param) :
    List String × List Param :=
  (q.1 ++ [column ++ " = $" ++ toString (q.2.length + 1)], q.2 ++ [param])

/-- The scanning loop of `FindContainerByIdentifier`, which gives up with a
nil error when a row does not scan. -/
def FindContainerByIdentifier.scan {ρ : Type}
    (scanContainer : ρ → SavedContainer × Option GoError) :
    List ρ → List SavedContainer → Option (List SavedContainer)
  | [], containers => some containers
  | row :: rows, containers =>
    match scanContainer row with
    | (_, some _) => none
    | (container, none) =>
      FindContainerByIdentifier.scan scanContainer rows (containers ++ [container])

/-- The part of `FindContainerByIdentifier` after the switch on the kind of
identifier: the image conditions, the query, the scan and the count. -/
def FindContainerByIdentifier.find {σ ρ : Type}
    (marshal : Option (List (String × String)) → String × Option GoError)
    (scanContainer : ρ → SavedContainer × Option GoError) (conn : Conn σ ρ)
    (id : ContainerIdentifier) (q : List String × List Param) (w : DBWorld σ) :
    (SavedContainer × Bool × Option DBError) × DBWorld σ :=
  let q1 : Except GoError (List String × List Param) :=
    if id.ImageResourceSource.isSome ∧ id.ImageResourceType ≠ "" then
      match marshal id.ImageResourceSource with
      | (_, some err) => Except.error err
      | (marshaled, none) =>
        Except.ok (addParam "image_resource_type" (Param.str id.ImageResourceType)
          (addParam "image_resource_source" (Param.str marshaled) q))
    else
      Except.ok (q.1 ++ ["image_resource_source IS NULL", "image_resource_type IS NULL"], q.2)
  match q1 with
  | Except.error err => ((SavedContainer.zero, false, some (DBError.other err)), w)
  | Except.ok (conditions, params) =>
    let selectQuery := "\n\t\tSELECT " ++ containerColumns ++ "\n\t\tFROM containers c " ++
      containerJoins ++ "\n\t\tWHERE " ++ String.intercalate " AND " conditions
    match conn.Query selectQuery params w.state with
    | ((rows, err), s1) =>
      let w1 : DBWorld σ := { state := s1, queries := w.queries ++ [(selectQuery, params)] }
      match err with
      | some e => ((SavedContainer.zero, false, some (DBError.other e)), w1)
      | none =>
        match FindContainerByIdentifier.scan scanContainer rows [] with
        | none => ((SavedContainer.zero, false, none), w1)
        | some [] => ((SavedContainer.zero, false, none), w1)
        | some [container] => ((container, true, none), w1)
        | some _ => ((SavedContainer.zero, false, some DBError.ErrMultipleContainersFound), w1)

/-- Method `SQLDB.FindContainerByIdentifier`. The parameter `marshal` stands for
`json.Marshal` on a source map. -/
def FindContainerByIdentifier {σ ρ : Type}
    (marshal : Option (List (String × String)) → String × Option GoError)
    (scanContainer : ρ → SavedContainer × Option GoError) (conn : Conn σ ρ)
    (id : ContainerIdentifier) (w : DBWorld σ) :
    (SavedContainer × Bool × Option DBError) × DBWorld σ :=
  let q0 : List String × List Param := (["(expires_at IS NULL OR expires_at > NOW())"], [])
  if isValidCheckID id then
    match marshal id.CheckSource with
    | (_, some err) => ((SavedContainer.zero, false, some (DBError.other err)), w)
    | (checkSourceBlob, none) =>
      let q1 := if id.ResourceID > 0 then addParam "resource_id" (Param.int id.ResourceID) q0
        else q0
      let q2 := addParam "check_type" (Param.str id.CheckType) q1
      let q3 := addParam "check_source" (Param.bytes checkSourceBlob) q2
      let q4 := addParam "stage" (Param.str id.Stage) q3
      FindContainerByIdentifier.find marshal scanContainer conn id
        (q4.1 ++ ["(best_if_used_by IS NULL OR best_if_used_by > NOW())"], q4.2) w
  else if isValidStepID id then
    let q1 := addParam "build_id" (Param.int id.BuildID) q0
    let q2 := addParam "plan_id" (Param.str id.PlanID) q1
    let q3 := addParam "stage" (Param.str id.Stage) q2
    FindContainerByIdentifier.find marshal scanContainer conn id q3 w
  else
    ((SavedContainer.zero, false, some DBError.ErrInvalidIdentifier), w)

/-- A step identifier: build 42, plan "plan-1", stage run, no image. -/
def stepIdentifier : ContainerIdentifier :=
  { ResourceID := 0, ResourceTypeVersion := none, CheckType := "", CheckSource := none,
    BuildID := 42, PlanID := "plan-1", Stage := ContainerStageRun,
    ImageResourceType := "", ImageResourceSource := none }

/-- An identifier that is neither a check nor a step identifier: it carries
both a check type and a build. -/
def mixedIdentifier : ContainerIdentifier :=
  { ResourceID := 1, ResourceTypeVersion := none, CheckType := "git",
    CheckSource := some [("uri", "https://example.com/repo.git")],
    BuildID := 42, PlanID := "plan-1", Stage := ContainerStageRun,
    ImageResourceType := "", ImageResourceSource := none }

/-- A database connection that answers the same rows to every query. Each row
is what `scanContainer` makes of it: a container or an error. -/
def cannedConn (rows : List (SavedContainer × Option GoError)) :
    Conn Unit (SavedContainer × Option GoError) where
  Query := fun _ _ s => ((rows, none), s)

/-- A JSON encoder that never fails. -/
def cannedMarshal : Option (List (String × String)) → String × Option GoError :=
  fun _ => ("null", none)

/-- Two containers that scan. -/
def containerA : SavedContainer := { ID := 1, Handle := "handle-a", WorkerName := "worker-1" }

/-- The second container. -/
def containerB : SavedContainer := { ID := 2, Handle := "handle-b", WorkerName := "worker-1" }

/-! ## The handler `SetTeam` (atc/api/teamserver/set.go) -/

/-- The team of the caller, as `auth.GetTeam(r)` answers it: `IsAdmin()` and
`IsAuthorized(teamName)`. -/
structure AuthTeam where
  IsAdmin : Bool
  IsAuthorized : String → Bool

/-- The type `db.SavedTeam`: a stored team with its ID. -/
structure SavedTeam where
  ID : Int
  team : Team
deriving DecidableEq, Repr

/-- What `SetTeam` reads of the request: the caller's team if one is found, the
form value `:team_name`, and the team decoded from the JSON body (`none` when
the body is malformed). -/
structure SetTeamRequest where
  authTeam : Option AuthTeam
  teamName : String
  body : Option Team

/-- The database behind the handler: the methods of `db.TeamDB` for a team
name (`GetTeam` and the four credential updates) and `CreateTeam` of
`db.TeamsDB`, each moving a database state. -/
structure TeamStore (σ : Type) where
  GetTeam : String → σ → (SavedTeam × Bool × Option GoError) × σ
  UpdateBasicAuth : String → Option BasicAuth → σ → (SavedTeam × Option GoError) × σ
  UpdateGitHubAuth : String → Option GitHubAuth → σ → (SavedTeam × Option GoError) × σ
  UpdateUAAAuth : String → Option UAAAuth → σ → (SavedTeam × Option GoError) × σ
  UpdateGenericOAuth : String → Option GenericOAuth → σ → (SavedTeam × Option GoError) × σ
  CreateTeam : Team → σ → (SavedTeam × Option GoError) × σ

/-- One call on the database. -/
inductive StoreCall where
  | GetTeam (teamName : String)
  | UpdateBasicAuth (teamName : String) (auth : Option BasicAuth)
  | UpdateGitHubAuth (teamName : String) (auth : Option GitHubAuth)
  | UpdateUAAAuth (teamName : String) (auth : Option UAAAuth)
  | UpdateGenericOAuth (teamName : String) (auth : Option GenericOAuth)
  | CreateTeam (team : Team)
deriving DecidableEq, Repr

/-- Is the call a team creation? -/
def StoreCall.isCreateTeam : StoreCall → Bool
  | StoreCall.CreateTeam _ => true
  | _ => false

/-- The database state, the calls made on it so far and the log lines written
so far, oldest first. -/
structure StoreWorld (σ : Type) where
  state : σ
  calls : List StoreCall
  logs : List String

/-- A world in which the database has not been called yet. -/
def StoreWorld.fresh {σ : Type} (s : σ) : StoreWorld σ :=
  { state := s, calls := [], logs := [] }

/-- What the handler writes: the status code and, when a team is encoded, the
saved team. -/
structure Response where
  status : Nat
  body : Option SavedTeam
deriving DecidableEq, Repr

/-- Method `Server.updateCredentials`: the four credential updates in order,
stopping at the first error. -/
def updateCredentials {σ : Type} (store : TeamStore σ) (team : Team) (teamName : String)
    (w : StoreWorld σ) : Option GoError × StoreWorld σ :=
  let r1 := store.UpdateBasicAuth teamName team.BasicAuth w.state
  let w1 : StoreWorld σ :=
    { w with state := r1.2,
             calls := w.calls ++ [StoreCall.UpdateBasicAuth teamName team.BasicAuth] }
  match r1.1.2 with
  | some err => (some err, w1)
  | none =>
    let r2 := store.UpdateGitHubAuth teamName team.GitHubAuth w1.state
    let w2 : StoreWorld σ :=
      { w1 with state := r2.2,
                calls := w1.calls ++ [StoreCall.UpdateGitHubAuth teamName team.GitHubAuth] }
    match r2.1.2 with
    | some err => (some err, w2)
    | none =>
      let r3 := store.UpdateUAAAuth teamName team.UAAAuth w2.state
      let w3 : StoreWorld σ :=
        { w2 with state := r3.2,
                  calls := w2.calls ++ [StoreCall.UpdateUAAAuth teamName team.UAAAuth] }
      match r3.1.2 with
      | some err => (some err, w3)
      | none =>
        let r4 := store.UpdateGenericOAuth teamName team.GenericOAuth w3.state
        let w4 : StoreWorld σ :=
          { w3 with state := r4.2,
                    calls := w3.calls ++
                      [StoreCall.UpdateGenericOAuth teamName team.GenericOAuth] }
        match r4.1.2 with
        | some err => (some err, w4)
        | none => (none, w4)

/-- Method `Server.SetTeam`. -/
def SetTeam {σ : Type} (validCertificate : String → Bool) (store : TeamStore σ)
    (r : SetTeamRequest) (w : StoreWorld σ) : Response × StoreWorld σ :=
  let w0 : StoreWorld σ := { w with logs := w.logs ++ ["setting team"] }
  match r.authTeam with
  | none =>
    ({ status := 500, body := none },
      { w0 with logs := w0.logs ++ ["failed-to-get-team-from-auth"] })
  | some authTeam =>
    let teamName := r.teamName
    match r.body with
    | none =>
      ({ status := 400, body := none }, { w0 with logs := w0.logs ++ ["malformed-request"] })
    | some decoded =>
      let team : Team := { decoded with Name := teamName }
      if !authTeam.IsAdmin && !authTeam.IsAuthorized teamName then
        ({ status := 403, body := none }, w0)
      else
        match validate validCertificate team with
        | Except.error _ =>
          ({ status := 400, body := none },
            { w0 with logs := w0.logs ++ ["request-body-validation-error"] })
        | Except.ok _ =>
          let g := store.GetTeam teamName w0.state
          let w1 : StoreWorld σ :=
            { w0 with state := g.2, calls := w0.calls ++ [StoreCall.GetTeam teamName] }
          match g.1.2.2 with
          | some _ =>
            ({ status := 500, body := none },
              { w1 with logs := w1.logs ++ ["failed-to-get-team"] })
          | none =>
            if g.1.2.1 then
              let u := updateCredentials store team teamName
                { w1 with logs := w1.logs ++ ["updating credentials"] }
              match u.1 with
              | some _ =>
                ({ status := 500, body := none },
                  { u.2 with logs := u.2.logs ++ ["failed-to-update-team"] })
              | none => ({ status := 200, body := some g.1.1 }, u.2)
            else if authTeam.IsAdmin then
              let cr := store.CreateTeam team w1.state
              let w2 : StoreWorld σ :=
                { w1 with state := cr.2, calls := w1.calls ++ [StoreCall.CreateTeam team],
                          logs := w1.logs ++ ["creating team"] }
              match cr.1.2 with
              | some _ =>
                ({ status := 500, body := none },
                  { w2 with logs := w2.logs ++ ["failed-to-save-team"] })
              | none => ({ status := 201, body := some cr.1.1 }, w2)
            else
              ({ status := 403, body := none }, w1)

/-- The database answers no error, whatever it is asked. -/
def TeamStore.NoErrors {σ : Type} (store : TeamStore σ) : Prop :=
  (∀ n s, (store.GetTeam n s).1.2.2 = none) ∧
  (∀ n a s, (store.UpdateBasicAuth n a s).1.2 = none) ∧
  (∀ n a s, (store.UpdateGitHubAuth n a s).1.2 = none) ∧
  (∀ n a s, (store.UpdateUAAAuth n a s).1.2 = none) ∧
  (∀ n a s, (store.UpdateGenericOAuth n a s).1.2 = none) ∧
  (∀ t s, (store.CreateTeam t s).1.2 = none)

/-- A database that answers no error and finds a team or not as told. -/
def cannedStore (found : Bool) : TeamStore Unit where
  GetTeam := fun n s => (({ ID := 1, team := { Name := n } }, found, none), s)
  UpdateBasicAuth := fun n _ s => (({ ID := 1, team := { Name := n } }, none), s)
  UpdateGitHubAuth := fun n _ s => (({ ID := 1, team := { Name := n } }, none), s)
  UpdateUAAAuth := fun n _ s => (({ ID := 1, team := { Name := n } }, none), s)
  UpdateGenericOAuth := fun n _ s => (({ ID := 1, team := { Name := n } }, none), s)
  CreateTeam := fun t s => (({ ID := 2, team := t }, none), s)

/-- A request of an authorized caller, admin or not, to set the team "acme" to
the configuration `CreateTeam` builds for the tenant "acme". -/
def acmeRequest (admin : Bool) : SetTeamRequest :=
  { authTeam := some { IsAdmin := admin, IsAuthorized := fun n => n = "acme" },
    teamName := "acme",
    body := some (teamConfig sampleClient acme) }

/-! ## Execution paths of `getAuthClient`, `CreateTeam` and `DeleteTeam` -/

/-- A failed token exchange: `getAuthClient` answers the error. -/
theorem getAuthClient_error {σ : Type} (srv : CIServer σ) (c : concourseClient)
    (url : String) (w : World σ) (tok : AuthToken) (e : GoError) (s1 : σ)
    (hA : srv.AuthToken (c.client.Team adminTeam) w.server = ((tok, some e), s1)) :
    getAuthClient srv c url w =
      (Except.error e,
        { w with server := s1,
                 calls := w.calls ++
                   [Event.AuthToken (c.client.Team adminTeam) tok (some e)] }) := by
  simp [getAuthClient, TeamHandle.AuthToken, hA]

/-- A successful token exchange: `getAuthClient` answers a client carrying the
token. -/
theorem getAuthClient_ok {σ : Type} (srv : CIServer σ) (c : concourseClient)
    (url : String) (w : World σ) (tok : AuthToken) (s1 : σ)
    (hA : srv.AuthToken (c.client.Team adminTeam) w.server = ((tok, none), s1)) :
    getAuthClient srv c url w =
      (Except.ok (NewConcourseClient url (newOAuthClient tok.Type_ tok.Value)),
        { w with server := s1,
                 calls := w.calls ++
                   [Event.AuthToken (c.client.Team adminTeam) tok none] }) := by
  simp [getAuthClient, TeamHandle.AuthToken, hA]

/-- Path of `CreateTeam` when the token exchange fails. -/
theorem CreateTeam_auth_error {σ : Type} (srv : CIServer σ) (c : concourseClient)
    (details : Details) (w : World σ) (tok : AuthToken) (e : GoError) (s1 : σ)
    (hA : srv.AuthToken (c.client.Team adminTeam) w.server = ((tok, some e), s1)) :
    CreateTeam srv c details w =
      (some e,
        { server := s1,
          calls := w.calls ++ [Event.AuthToken (c.client.Team adminTeam) tok (some e)],
          logs := w.logs ++
            [{ logger := c.logger, action := "create-team.auth-client-error", err := e,
               data := [] }] }) := by
  simp [CreateTeam, getAuthClient_error srv c _ w tok e s1 hA, Logger.Error]

/-- Path of `CreateTeam` when the existence query answers no error, or one
method or more. -/
theorem CreateTeam_existing {σ : Type} (srv : CIServer σ) (c : concourseClient)
    (details : Details) (w : World σ) (tok : AuthToken) (s1 : σ)
    (ms : List AuthMethod) (le : Option GoError) (s2 : σ)
    (hA : srv.AuthToken (c.client.Team adminTeam) w.server = ((tok, none), s1))
    (hL : srv.ListAuthMethods ((authClient c tok).Team (getTeamName c details)) s1 =
      ((ms, le), s2))
    (hex : le = none ∨ 0 < ms.length) :
    CreateTeam srv c details w =
      (some (teamAlreadyExists (getTeamName c details)),
        { server := s2,
          calls := w.calls ++
            [Event.AuthToken (c.client.Team adminTeam) tok none,
             Event.ListAuthMethods ((authClient c tok).Team (getTeamName c details)) ms le],
          logs := w.logs ++
            [{ logger := c.logger, action := "create-team.existing-team-error",
               err := teamAlreadyExists (getTeamName c details),
               data := [("team-name", LagerValue.str (getTeamName c details)),
                        ("auth-methods-size", LagerValue.int ms.length)] }] }) := by
  have hcond : (le.isNone || decide (ms.length > 0)) = true := by
    rcases hex with h | h
    · simp [h]
    · simp [h]
  unfold authClient at hL
  simp [CreateTeam, getAuthClient_ok srv c _ w tok s1 hA, TeamHandle.ListAuthMethods, hL,
    Logger.Error, hcond, authClient]

/-- Path of `CreateTeam` when the existence query answers an error and no
method: create-or-update is requested and its answer decides the result. -/
theorem CreateTeam_absent {σ : Type} (srv : CIServer σ) (c : concourseClient)
    (details : Details) (w : World σ) (tok : AuthToken) (s1 : σ)
    (le : GoError) (s2 : σ) (saved : Team) (created updated : Bool)
    (ce : Option GoError) (s3 : σ)
    (hA : srv.AuthToken (c.client.Team adminTeam) w.server = ((tok, none), s1))
    (hL : srv.ListAuthMethods ((authClient c tok).Team (getTeamName c details)) s1 =
      (([], some le), s2))
    (hC : srv.CreateOrUpdate ((authClient c tok).Team (getTeamName c details))
      (teamConfig c details) s2 = ((saved, created, updated, ce), s3)) :
    CreateTeam srv c details w =
      (createOutcome created updated ce,
        { server := s3,
          calls := w.calls ++
            [Event.AuthToken (c.client.Team adminTeam) tok none,
             Event.ListAuthMethods ((authClient c tok).Team (getTeamName c details)) []
               (some le),
             Event.CreateOrUpdate ((authClient c tok).Team (getTeamName c details))
               (teamConfig c details) saved created updated ce],
          logs := w.logs ++
            createLogs c (getTeamName c details) (createOutcome created updated ce) }) := by
  unfold authClient at hL hC
  unfold teamConfig at hC
  cases ce with
  | some e =>
    simp [CreateTeam, getAuthClient_ok srv c _ w tok s1 hA, TeamHandle.ListAuthMethods, hL,
      TeamHandle.CreateOrUpdate, hC, Logger.Error, authClient, teamConfig, createOutcome,
      createLogs]
  | none =>
    cases created <;> cases updated <;>
    simp [CreateTeam, getAuthClient_ok srv c _ w tok s1 hA, TeamHandle.ListAuthMethods, hL,
      TeamHandle.CreateOrUpdate, hC, Logger.Error, authClient, teamConfig, createOutcome,
      createLogs]

/-- Every `CreateTeam` call follows one of the three paths above. -/
theorem CreateTeam_cases {σ : Type} (srv : CIServer σ) (c : concourseClient)
    (details : Details) (w : World σ) :
    (∃ tok e s1, srv.AuthToken (c.client.Team adminTeam) w.server = ((tok, some e), s1)) ∨
    (∃ tok s1 ms le s2,
      srv.AuthToken (c.client.Team adminTeam) w.server = ((tok, none), s1) ∧
      srv.ListAuthMethods ((authClient c tok).Team (getTeamName c details)) s1 =
        ((ms, le), s2) ∧
      (le = none ∨ 0 < ms.length)) ∨
    (∃ tok s1 le s2 saved created updated ce s3,
      srv.AuthToken (c.client.Team adminTeam) w.server = ((tok, none), s1) ∧
      srv.ListAuthMethods ((authClient c tok).Team (getTeamName c details)) s1 =
        (([], some le), s2) ∧
      srv.CreateOrUpdate ((authClient c tok).Team (getTeamName c details))
        (teamConfig c details) s2 = ((saved, created, updated, ce), s3)) := by
  rcases hA : srv.AuthToken (c.client.Team adminTeam) w.server with ⟨⟨tok, e⟩, s1⟩
  cases e with
  | some e => exact Or.inl ⟨tok, e, s1, rfl⟩
  | none =>
    right
    rcases hL : srv.ListAuthMethods ((authClient c tok).Team (getTeamName c details)) s1
      with ⟨⟨ms, le⟩, s2⟩
    cases le with
    | none => exact Or.inl ⟨tok, s1, ms, none, s2, rfl, hL, Or.inl rfl⟩
    | some le =>
      cases ms with
      | cons m ms =>
        exact Or.inl ⟨tok, s1, m :: ms, some le, s2, rfl, hL, Or.inr (by simp)⟩
      | nil =>
        right
        rcases hC : srv.CreateOrUpdate ((authClient c tok).Team (getTeamName c details))
          (teamConfig c details) s2 with ⟨⟨saved, created, updated, ce⟩, s3⟩
        exact ⟨tok, s1, le, s2, saved, created, updated, ce, s3, rfl, hL, hC⟩

/-- Path of `DeleteTeam` when the token exchange fails. -/
theorem DeleteTeam_auth_error {σ : Type} (srv : CIServer σ) (c : concourseClient)
    (details : Details) (w : World σ) (tok : AuthToken) (e : GoError) (s1 : σ)
    (hA : srv.AuthToken (c.client.Team adminTeam) w.server = ((tok, some e), s1)) :
    DeleteTeam srv c details w =
      (some e,
        { server := s1,
          calls := w.calls ++ [Event.AuthToken (c.client.Team adminTeam) tok (some e)],
          logs := w.logs ++
            [{ logger := c.logger, action := "delete-team.auth-client-error", err := e,
               data := [] }] }) := by
  simp [DeleteTeam, getAuthClient_error srv c _ w tok e s1 hA, Logger.Error]

/-- Path of `DeleteTeam` when the token exchange succeeds: the destroy request
is issued and its answer is the result. -/
theorem DeleteTeam_destroy {σ : Type} (srv : CIServer σ) (c : concourseClient)
    (details : Details) (w : World σ) (tok : AuthToken) (s1 : σ)
    (de : Option GoError) (s2 : σ)
    (hA : srv.AuthToken (c.client.Team adminTeam) w.server = ((tok, none), s1))
    (hD : srv.DestroyTeam ((authClient c tok).Team details.OrgName)
      (getTeamName c details) s1 = (de, s2)) :
    DeleteTeam srv c details w =
      (de,
        { server := s2,
          calls := w.calls ++
            [Event.AuthToken (c.client.Team adminTeam) tok none,
             Event.DestroyTeam ((authClient c tok).Team details.OrgName)
               (getTeamName c details) de],
          logs := w.logs ++ destroyLogs c (getTeamName c details) de }) := by
  unfold authClient at hD
  cases de with
  | some e =>
    simp [DeleteTeam, getAuthClient_ok srv c _ w tok s1 hA, TeamHandle.DestroyTeam, hD,
      Logger.Error, authClient, destroyLogs]
  | none =>
    simp [DeleteTeam, getAuthClient_ok srv c _ w tok s1 hA, TeamHandle.DestroyTeam, hD,
      Logger.Error, authClient, destroyLogs]

/-- A stored team is found under its own name at the head of the table. -/
theorem findTeam_head (t : Team) (ts : List Team) : findTeam t.Name (t :: ts) = some t := by
  simp [findTeam]

/-- The in-memory CI server reports the teams it creates. -/
theorem memoryServer_reports : ReportsCreatedTeams memoryServer := by
  intro h config saved s s3 hU hC a q tok s4 hq hA
  have hs4 : s4 = s3 := by
    simp [memoryServer] at hA
    exact hA.2.symm
  subst hs4
  simp only [memoryServer] at hC
  cases hf : findTeam h.name s with
  | some t => simp [hf] at hC
  | none =>
    simp only [hf, Prod.mk.injEq] at hC
    obtain ⟨-, rfl⟩ := hC
    have hfind : findTeam q.name ({ config with Name := h.name } :: s) =
        some { config with Name := h.name } := by
      rw [hq]
      exact findTeam_head { config with Name := h.name } s
    simp [memoryServer, hfind, authMethodsOf, hU]

/-! ## The claims -/

/-- C1: when the token exchange succeeds and the existence query on the derived
team reports one authorization method or more, with or without an error,
`CreateTeam` returns the team-already-exists error and issues no
create-or-update request. -/
theorem CreateTeam_methods_present_rejected {σ : Type} (srv : CIServer σ)
    (c : concourseClient) (details : Details) (s : σ) (tok : AuthToken) (s1 : σ)
    (ms : List AuthMethod) (le : Option GoError) (s2 : σ)
    (hA : srv.AuthToken (c.client.Team adminTeam) s = ((tok, none), s1))
    (hL : srv.ListAuthMethods ((authClient c tok).Team (getTeamName c details)) s1 =
      ((ms, le), s2))
    (hpos : 0 < ms.length) :
    (CreateTeam srv c details (World.fresh s)).1 =
        some (teamAlreadyExists (getTeamName c details)) ∧
      createOrUpdateCount (CreateTeam srv c details (World.fresh s)).2.calls = 0 := by
  rw [CreateTeam_existing srv c details (World.fresh s) tok s1 ms le s2 hA hL (Or.inr hpos)]
  simp [createOrUpdateCount, World.fresh, Event.isCreateOrUpdate]

/-- C1 at a server that lists one method and also answers an error. -/
theorem CreateTeam_methods_present_rejected_witness :
    (CreateTeam (cannedServer (bearer, none) ([uaaMethod], some { msg := "EOF" })
        ({}, true, false, none) none) sampleClient acme (World.fresh ())).1 =
        some (teamAlreadyExists "acme") ∧
      createOrUpdateCount (CreateTeam (cannedServer (bearer, none)
        ([uaaMethod], some { msg := "EOF" }) ({}, true, false, none) none)
        sampleClient acme (World.fresh ())).2.calls = 0 :=
  CreateTeam_methods_present_rejected
    (cannedServer (bearer, none) ([uaaMethod], some { msg := "EOF" })
      ({}, true, false, none) none)
    sampleClient acme () bearer () [uaaMethod] (some { msg := "EOF" }) () rfl rfl (by decide)

/-- C2: a `CreateTeam` call that reaches create-or-update and gets back no
error succeeds exactly when the answer is created and not updated; for every
other combination, and so whenever updated is true, it returns the
unexpected-state error "Unable to provision instance". -/
theorem CreateTeam_created_not_updated {σ : Type} (srv : CIServer σ)
    (c : concourseClient) (details : Details) (s : σ) (th : TeamHandle)
    (config saved : Team) (created updated : Bool)
    (hreach : Event.CreateOrUpdate th config saved created updated none ∈
      (CreateTeam srv c details (World.fresh s)).2.calls) :
    ((CreateTeam srv c details (World.fresh s)).1 = none ↔
        (created = true ∧ updated = false)) ∧
      (¬ (created = true ∧ updated = false) →
        (CreateTeam srv c details (World.fresh s)).1 = some unableToProvision) ∧
      (updated = true →
        (CreateTeam srv c details (World.fresh s)).1 = some unableToProvision) := by
  rcases CreateTeam_cases srv c details (World.fresh s) with
    ⟨tok, e, s1, hA⟩ | ⟨tok, s1, ms, le, s2, hA, hL, hex⟩ |
    ⟨tok, s1, le, s2, sv, cr, up, ce, s3, hA, hL, hC⟩
  · rw [CreateTeam_auth_error srv c details _ tok e s1 hA] at hreach
    simp [World.fresh] at hreach
  · rw [CreateTeam_existing srv c details _ tok s1 ms le s2 hA hL hex] at hreach
    simp [World.fresh] at hreach
  · rw [CreateTeam_absent srv c details _ tok s1 le s2 sv cr up ce s3 hA hL hC] at hreach ⊢
    simp [World.fresh] at hreach
    obtain ⟨-, -, -, rfl, rfl, rfl⟩ := hreach
    cases created <;> cases updated <;> simp [createOutcome]

/-- C2 at a server that answers created and updated at once. -/
theorem CreateTeam_created_not_updated_witness :
    (CreateTeam (cannedServer (bearer, none) ([], some resourceNotFound)
        ({}, true, true, none) none) sampleClient acme (World.fresh ())).1 =
      some unableToProvision :=
  (CreateTeam_created_not_updated
    (cannedServer (bearer, none) ([], some resourceNotFound) ({}, true, true, none) none)
    sampleClient acme () ((authClient sampleClient bearer).Team "acme")
    (teamConfig sampleClient acme) {} true true (by decide)).2.2 rfl

/-- C3: when the token exchange against the admin team fails, `CreateTeam`
returns that error and issues neither the existence query nor
create-or-update. -/
theorem CreateTeam_auth_failure {σ : Type} (srv : CIServer σ) (c : concourseClient)
    (details : Details) (s : σ) (tok : AuthToken) (e : GoError) (s1 : σ)
    (hA : srv.AuthToken (c.client.Team adminTeam) s = ((tok, some e), s1)) :
    (CreateTeam srv c details (World.fresh s)).1 = some e ∧
      listAuthMethodsCount (CreateTeam srv c details (World.fresh s)).2.calls = 0 ∧
      createOrUpdateCount (CreateTeam srv c details (World.fresh s)).2.calls = 0 := by
  rw [CreateTeam_auth_error srv c details (World.fresh s) tok e s1 hA]
  simp [listAuthMethodsCount, createOrUpdateCount, World.fresh, Event.isListAuthMethods,
    Event.isCreateOrUpdate]

/-- C3 at a server whose token endpoint answers HTTP 500. -/
theorem CreateTeam_auth_failure_witness :
    (CreateTeam (cannedServer (bearer, some { msg := "500 Internal Server Error" })
        ([], some resourceNotFound) ({}, true, false, none) none)
        sampleClient acme (World.fresh ())).1 =
        some { msg := "500 Internal Server Error" } ∧
      listAuthMethodsCount (CreateTeam (cannedServer
        (bearer, some { msg := "500 Internal Server Error" })
        ([], some resourceNotFound) ({}, true, false, none) none)
        sampleClient acme (World.fresh ())).2.calls = 0 ∧
      createOrUpdateCount (CreateTeam (cannedServer
        (bearer, some { msg := "500 Internal Server Error" })
        ([], some resourceNotFound) ({}, true, false, none) none)
        sampleClient acme (World.fresh ())).2.calls = 0 :=
  CreateTeam_auth_failure
    (cannedServer (bearer, some { msg := "500 Internal Server Error" })
      ([], some resourceNotFound) ({}, true, false, none) none)
    sampleClient acme () bearer { msg := "500 Internal Server Error" } () rfl

/-- C4: when the token exchange fails, `DeleteTeam` returns that error and
issues no destroy-team request. -/
theorem DeleteTeam_auth_failure {σ : Type} (srv : CIServer σ) (c : concourseClient)
    (details : Details) (s : σ) (tok : AuthToken) (e : GoError) (s1 : σ)
    (hA : srv.AuthToken (c.client.Team adminTeam) s = ((tok, some e), s1)) :
    (DeleteTeam srv c details (World.fresh s)).1 = some e ∧
      destroyTeamCount (DeleteTeam srv c details (World.fresh s)).2.calls = 0 := by
  rw [DeleteTeam_auth_error srv c details (World.fresh s) tok e s1 hA]
  simp [destroyTeamCount, World.fresh, Event.isDestroyTeam]

/-- C4 at a server whose token endpoint answers "not authorized". -/
theorem DeleteTeam_auth_failure_witness :
    (DeleteTeam (cannedServer (bearer, some { msg := "not authorized" })
        ([], none) ({}, true, false, none) none) sampleClient acme (World.fresh ())).1 =
        some { msg := "not authorized" } ∧
      destroyTeamCount (DeleteTeam (cannedServer (bearer, some { msg := "not authorized" })
        ([], none) ({}, true, false, none) none)
        sampleClient acme (World.fresh ())).2.calls = 0 :=
  DeleteTeam_auth_failure
    (cannedServer (bearer, some { msg := "not authorized" }) ([], none)
      ({}, true, false, none) none)
    sampleClient acme () bearer { msg := "not authorized" } () rfl

/-- C5: against a CI server that reports the teams it creates, two `CreateTeam`
calls in sequence for the same details, the token exchange succeeding both
times, give success and then the team-already-exists error: the first call
succeeds when the server answers not-found and then created, a first success
is followed by team-already-exists, and the two calls never both succeed. -/
theorem CreateTeam_twice {σ : Type} (srv : CIServer σ) (c : concourseClient)
    (details : Details) (s : σ) (tok2 : AuthToken) (s4 : σ)
    (hsrv : ReportsCreatedTeams srv)
    (hA2 : srv.AuthToken (c.client.Team adminTeam)
      (CreateTeam srv c details (World.fresh s)).2.server = ((tok2, none), s4)) :
    (∀ (tok : AuthToken) (s1 : σ) (le : GoError) (s2 : σ) (saved : Team) (s3 : σ),
      srv.AuthToken (c.client.Team adminTeam) s = ((tok, none), s1) →
      srv.ListAuthMethods ((authClient c tok).Team (getTeamName c details)) s1 =
        (([], some le), s2) →
      srv.CreateOrUpdate ((authClient c tok).Team (getTeamName c details))
        (teamConfig c details) s2 = ((saved, true, false, none), s3) →
      (CreateTeam srv c details (World.fresh s)).1 = none) ∧
    ((CreateTeam srv c details (World.fresh s)).1 = none →
      (CreateTeam srv c details
        (World.fresh (CreateTeam srv c details (World.fresh s)).2.server)).1 =
        some (teamAlreadyExists (getTeamName c details))) ∧
    ¬ ((CreateTeam srv c details (World.fresh s)).1 = none ∧
      (CreateTeam srv c details
        (World.fresh (CreateTeam srv c details (World.fresh s)).2.server)).1 = none) := by
  have hsecond : (CreateTeam srv c details (World.fresh s)).1 = none →
      (CreateTeam srv c details
        (World.fresh (CreateTeam srv c details (World.fresh s)).2.server)).1 =
        some (teamAlreadyExists (getTeamName c details)) := by
    intro hfirst
    rcases CreateTeam_cases srv c details (World.fresh s) with
      ⟨tok, e, s1, hA⟩ | ⟨tok, s1, ms, le, s2, hA, hL, hex⟩ |
      ⟨tok, s1, le, s2, sv, cr, up, ce, s3, hA, hL, hC⟩
    · rw [CreateTeam_auth_error srv c details _ tok e s1 hA] at hfirst
      simp at hfirst
    · rw [CreateTeam_existing srv c details _ tok s1 ms le s2 hA hL hex] at hfirst
      simp at hfirst
    · have hrun := CreateTeam_absent srv c details _ tok s1 le s2 sv cr up ce s3 hA hL hC
      rw [hrun] at hfirst hA2 ⊢
      cases ce with
      | some e => simp [createOutcome] at hfirst
      | none =>
        cases cr <;> cases up <;> simp [createOutcome] at hfirst
        simp only at hA2 ⊢
        have hlen := hsrv ((authClient c tok).Team (getTeamName c details))
          (teamConfig c details) sv s2 s3 (by simp [teamConfig]) hC
          (c.client.Team adminTeam) ((authClient c tok2).Team (getTeamName c details))
          tok2 s4 rfl hA2
        rcases hL2 : srv.ListAuthMethods
          ((authClient c tok2).Team (getTeamName c details)) s4 with ⟨⟨ms2, le2⟩, s5⟩
        rw [hL2] at hlen
        rw [CreateTeam_existing srv c details (World.fresh s3) tok2 s4 ms2 le2 s5 hA2 hL2
          (Or.inr hlen)]
  refine ⟨?_, hsecond, ?_⟩
  · intro tok s1 le s2 saved s3 hA hL hC
    rw [CreateTeam_absent srv c details (World.fresh s) tok s1 le s2 saved true false none s3
      hA hL hC]
    simp [createOutcome]
  · rintro ⟨h1, h2⟩
    rw [hsecond h1] at h2
    simp at h2

/-- C5 on the in-memory CI server, starting from an empty team table: the
first call succeeds and the second answers team-already-exists. -/
theorem CreateTeam_twice_witness :
    (CreateTeam memoryServer sampleClient acme (World.fresh [])).1 = none ∧
      (CreateTeam memoryServer sampleClient acme
        (World.fresh (CreateTeam memoryServer sampleClient acme (World.fresh [])).2.server)).1 =
        some (teamAlreadyExists "acme") :=
  ⟨(CreateTeam_twice memoryServer sampleClient acme [] bearer
      (CreateTeam memoryServer sampleClient acme (World.fresh [])).2.server
      memoryServer_reports rfl).1 bearer [] resourceNotFound [] 
      { teamConfig sampleClient acme with Name := "acme" }
      [{ teamConfig sampleClient acme with Name := "acme" }] rfl rfl rfl,
   (CreateTeam_twice memoryServer sampleClient acme [] bearer
      (CreateTeam memoryServer sampleClient acme (World.fresh [])).2.server
      memoryServer_reports rfl).2.1 rfl⟩

/-- C6, the claim refuted: the token exchange succeeds and the existence query
fails with a transport error, listing no method; `CreateTeam` does not return
team-already-exists, it issues create-or-update once and succeeds. -/
theorem CreateTeam_query_error_counterexample :
    (CreateTeam (cannedServer (bearer, none) ([], some { msg := "connection refused" })
        ({}, true, false, none) none) sampleClient acme (World.fresh ())).1 = none ∧
      createOrUpdateCount (CreateTeam (cannedServer (bearer, none)
        ([], some { msg := "connection refused" }) ({}, true, false, none) none)
        sampleClient acme (World.fresh ())).2.calls = 1 := by
  decide

/-- C6 as amended: when the token exchange succeeds and the existence query
fails with an error of any kind while listing no method, `CreateTeam` does not
take the team-already-exists branch and issues create-or-update exactly once. -/
theorem CreateTeam_query_error_proceeds {σ : Type} (srv : CIServer σ)
    (c : concourseClient) (details : Details) (s : σ) (tok : AuthToken) (s1 : σ)
    (le : GoError) (s2 : σ)
    (hA : srv.AuthToken (c.client.Team adminTeam) s = ((tok, none), s1))
    (hL : srv.ListAuthMethods ((authClient c tok).Team (getTeamName c details)) s1 =
      (([], some le), s2)) :
    createOrUpdateCount (CreateTeam srv c details (World.fresh s)).2.calls = 1 ∧
      loggedExistingTeam (CreateTeam srv c details (World.fresh s)).2.logs = false := by
  rcases hC : srv.CreateOrUpdate ((authClient c tok).Team (getTeamName c details))
    (teamConfig c details) s2 with ⟨⟨saved, created, updated, ce⟩, s3⟩
  rw [CreateTeam_absent srv c details (World.fresh s) tok s1 le s2 saved created updated ce s3
    hA hL hC]
  constructor
  · simp [createOrUpdateCount, World.fresh, Event.isCreateOrUpdate]
  · cases hres : createOutcome created updated ce <;>
      simp [loggedExistingTeam, World.fresh, createLogs]

/-- C6 as amended, at a server whose existence query answers a transport
error. -/
theorem CreateTeam_query_error_proceeds_witness :
    createOrUpdateCount (CreateTeam (cannedServer (bearer, none)
        ([], some { msg := "connection refused" }) ({}, false, true, none) none)
        sampleClient acme (World.fresh ())).2.calls = 1 ∧
      loggedExistingTeam (CreateTeam (cannedServer (bearer, none)
        ([], some { msg := "connection refused" }) ({}, false, true, none) none)
        sampleClient acme (World.fresh ())).2.logs = false :=
  CreateTeam_query_error_proceeds
    (cannedServer (bearer, none) ([], some { msg := "connection refused" })
      ({}, false, true, none) none)
    sampleClient acme () bearer () { msg := "connection refused" } () rfl rfl

/-- C7, the claim refuted: the token exchange succeeds and the existence query
answers an empty list without error; `CreateTeam` returns team-already-exists
and issues no create-or-update request. -/
theorem CreateTeam_empty_list_counterexample :
    (CreateTeam (cannedServer (bearer, none) ([], none) ({}, true, false, none) none)
        sampleClient acme (World.fresh ())).1 = some (teamAlreadyExists "acme") ∧
      createOrUpdateCount (CreateTeam (cannedServer (bearer, none) ([], none)
        ({}, true, false, none) none) sampleClient acme (World.fresh ())).2.calls = 0 := by
  decide

/-- C7 as amended: when the token exchange succeeds and the existence query
answers an empty list together with an error, `CreateTeam` treats the team as
not found: it does not take the team-already-exists branch, it issues the
create-or-update request for the derived team, and the answer to that request
decides its result. -/
theorem CreateTeam_empty_list_with_error {σ : Type} (srv : CIServer σ)
    (c : concourseClient) (details : Details) (s : σ) (tok : AuthToken) (s1 : σ)
    (le : GoError) (s2 : σ) (saved : Team) (created updated : Bool)
    (ce : Option GoError) (s3 : σ)
    (hA : srv.AuthToken (c.client.Team adminTeam) s = ((tok, none), s1))
    (hL : srv.ListAuthMethods ((authClient c tok).Team (getTeamName c details)) s1 =
      (([], some le), s2))
    (hC : srv.CreateOrUpdate ((authClient c tok).Team (getTeamName c details))
      (teamConfig c details) s2 = ((saved, created, updated, ce), s3)) :
    (CreateTeam srv c details (World.fresh s)).2.calls =
        [Event.AuthToken (c.client.Team adminTeam) tok none,
         Event.ListAuthMethods ((authClient c tok).Team (getTeamName c details)) []
           (some le),
         Event.CreateOrUpdate ((authClient c tok).Team (getTeamName c details))
           (teamConfig c details) saved created updated ce] ∧
      loggedExistingTeam (CreateTeam srv c details (World.fresh s)).2.logs = false ∧
      (CreateTeam srv c details (World.fresh s)).1 = createOutcome created updated ce := by
  rw [CreateTeam_absent srv c details (World.fresh s) tok s1 le s2 saved created updated ce s3
    hA hL hC]
  refine ⟨by simp [World.fresh], ?_, rfl⟩
  cases hres : createOutcome created updated ce <;>
    simp [loggedExistingTeam, World.fresh, createLogs]

/-- C7 as amended, at a server that answers not-found and then creates. -/
theorem CreateTeam_empty_list_with_error_witness :
    (CreateTeam (cannedServer (bearer, none) ([], some resourceNotFound)
        ({}, true, false, none) none) sampleClient acme (World.fresh ())).2.calls =
        [Event.AuthToken (sampleClient.client.Team adminTeam) bearer none,
         Event.ListAuthMethods ((authClient sampleClient bearer).Team "acme") []
           (some resourceNotFound),
         Event.CreateOrUpdate ((authClient sampleClient bearer).Team "acme")
           (teamConfig sampleClient acme) {} true false none] ∧
      loggedExistingTeam (CreateTeam (cannedServer (bearer, none)
        ([], some resourceNotFound) ({}, true, false, none) none)
        sampleClient acme (World.fresh ())).2.logs = false ∧
      (CreateTeam (cannedServer (bearer, none) ([], some resourceNotFound)
        ({}, true, false, none) none) sampleClient acme (World.fresh ())).1 = none :=
  CreateTeam_empty_list_with_error
    (cannedServer (bearer, none) ([], some resourceNotFound) ({}, true, false, none) none)
    sampleClient acme () bearer () resourceNotFound () {} true false none () rfl rfl rfl

/-- C8: team-name derivation is injective on organization names: two details
with different non-empty organization names get different team names. -/
theorem getTeamName_injective (c : concourseClient) (d1 d2 : Details)
    (_h1 : d1.OrgName ≠ "") (_h2 : d2.OrgName ≠ "") (hne : d1.OrgName ≠ d2.OrgName) :
    getTeamName c d1 ≠ getTeamName c d2 := by
  unfold getTeamName
  exact hne

/-- C8 at the organizations "acme" and "globex". -/
theorem getTeamName_injective_witness :
    getTeamName sampleClient acme ≠ getTeamName sampleClient globex :=
  getTeamName_injective sampleClient acme globex (by decide) (by decide) (by decide)

/-- C9: the team name is a function of the organization name alone: two details
with the same organization name get the same team name, whatever their
organization GUIDs and space GUIDs. -/
theorem getTeamName_org_name_only (c : concourseClient) (d1 d2 : Details)
    (hname : d1.OrgName = d2.OrgName) :
    getTeamName c d1 = getTeamName c d2 := by
  simpa [getTeamName] using hname

/-- C9 at two organizations of different GUIDs that share the name "acme". -/
theorem getTeamName_org_name_only_witness :
    acme.OrgGUID ≠ acmeTwin.OrgGUID ∧ acme.SpaceGUID ≠ acmeTwin.SpaceGUID ∧
      getTeamName sampleClient acme = getTeamName sampleClient acmeTwin :=
  ⟨by decide, by decide, getTeamName_org_name_only sampleClient acme acmeTwin rfl⟩

/-- C10, the claim refuted: with an empty organization name the derived team
name is the empty string, no validation error is reported, and `CreateTeam`
succeeds at a server that answers not-found and then created. -/
theorem CreateTeam_empty_org_name_counterexample :
    getTeamName sampleClient nameless = "" ∧
      (CreateTeam (cannedServer (bearer, none) ([], some resourceNotFound)
        ({}, true, false, none) none) sampleClient nameless (World.fresh ())).1 = none := by
  decide

/-- C10 as amended: for details with an empty organization name, team-name
derivation reports no error and yields the empty team name, and `CreateTeam`
runs as for any other name: it succeeds when the token exchange succeeds, the
existence query on the empty team name answers an error with no method, and
create-or-update answers created and not updated. -/
theorem CreateTeam_empty_org_name {σ : Type} (srv : CIServer σ)
    (c : concourseClient) (details : Details) (s : σ) (tok : AuthToken) (s1 : σ)
    (le : GoError) (s2 : σ) (saved : Team) (s3 : σ)
    (hempty : details.OrgName = "")
    (hA : srv.AuthToken (c.client.Team adminTeam) s = ((tok, none), s1))
    (hL : srv.ListAuthMethods ((authClient c tok).Team "") s1 = (([], some le), s2))
    (hC : srv.CreateOrUpdate ((authClient c tok).Team "") (teamConfig c details) s2 =
      ((saved, true, false, none), s3)) :
    getTeamName c details = "" ∧
      (CreateTeam srv c details (World.fresh s)).1 = none := by
  have hname : getTeamName c details = "" := by simpa [getTeamName] using hempty
  rw [← hname] at hL hC
  rw [CreateTeam_absent srv c details (World.fresh s) tok s1 le s2 saved true false none s3
    hA hL hC]
  exact ⟨hname, by simp [createOutcome]⟩

/-- C10 as amended, on the in-memory CI server with an empty team table. -/
theorem CreateTeam_empty_org_name_witness :
    getTeamName sampleClient nameless = "" ∧
      (CreateTeam memoryServer sampleClient nameless (World.fresh [])).1 = none :=
  CreateTeam_empty_org_name memoryServer sampleClient nameless [] bearer []
    resourceNotFound [] { teamConfig sampleClient nameless with Name := "" }
    [{ teamConfig sampleClient nameless with Name := "" }] rfl rfl rfl rfl

/-! ## Further execution-path lemmas -/

/-- Every `DeleteTeam` call follows one of its two paths. -/
theorem DeleteTeam_cases {σ : Type} (srv : CIServer σ) (c : concourseClient)
    (details : Details) (w : World σ) :
    (∃ tok e s1, srv.AuthToken (c.client.Team adminTeam) w.server = ((tok, some e), s1)) ∨
    (∃ tok s1 de s2,
      srv.AuthToken (c.client.Team adminTeam) w.server = ((tok, none), s1) ∧
      srv.DestroyTeam ((authClient c tok).Team details.OrgName)
        (getTeamName c details) s1 = (de, s2)) := by
  rcases hA : srv.AuthToken (c.client.Team adminTeam) w.server with ⟨⟨tok, e⟩, s1⟩
  cases e with
  | some e => exact Or.inl ⟨tok, e, s1, rfl⟩
  | none =>
    rcases hD : srv.DestroyTeam ((authClient c tok).Team details.OrgName)
      (getTeamName c details) s1 with ⟨de, s2⟩
    exact Or.inr ⟨tok, s1, de, s2, rfl, hD⟩

/-- The history of a world does not influence `CreateTeam`: the call does what
it does in a fresh world of the same server state, after the earlier requests
and log lines. -/
theorem CreateTeam_frame {σ : Type} (srv : CIServer σ) (c : concourseClient)
    (details : Details) (w : World σ) :
    CreateTeam srv c details w =
      ((CreateTeam srv c details (World.fresh w.server)).1,
        { server := (CreateTeam srv c details (World.fresh w.server)).2.server,
          calls := w.calls ++ (CreateTeam srv c details (World.fresh w.server)).2.calls,
          logs := w.logs ++ (CreateTeam srv c details (World.fresh w.server)).2.logs }) := by
  rcases CreateTeam_cases srv c details w with
    ⟨tok, e, s1, hA⟩ | ⟨tok, s1, ms, le, s2, hA, hL, hex⟩ |
    ⟨tok, s1, le, s2, sv, cr, up, ce, s3, hA, hL, hC⟩
  · rw [CreateTeam_auth_error srv c details w tok e s1 hA,
      CreateTeam_auth_error srv c details (World.fresh w.server) tok e s1 hA]
    simp [World.fresh]
  · rw [CreateTeam_existing srv c details w tok s1 ms le s2 hA hL hex,
      CreateTeam_existing srv c details (World.fresh w.server) tok s1 ms le s2 hA hL hex]
    simp [World.fresh]
  · rw [CreateTeam_absent srv c details w tok s1 le s2 sv cr up ce s3 hA hL hC,
      CreateTeam_absent srv c details (World.fresh w.server) tok s1 le s2 sv cr up ce s3
        hA hL hC]
    simp [World.fresh]

/-- The history of a world does not influence `DeleteTeam`. -/
theorem DeleteTeam_frame {σ : Type} (srv : CIServer σ) (c : concourseClient)
    (details : Details) (w : World σ) :
    DeleteTeam srv c details w =
      ((DeleteTeam srv c details (World.fresh w.server)).1,
        { server := (DeleteTeam srv c details (World.fresh w.server)).2.server,
          calls := w.calls ++ (DeleteTeam srv c details (World.fresh w.server)).2.calls,
          logs := w.logs ++ (DeleteTeam srv c details (World.fresh w.server)).2.logs }) := by
  rcases DeleteTeam_cases srv c details w with
    ⟨tok, e, s1, hA⟩ | ⟨tok, s1, de, s2, hA, hD⟩
  · rw [DeleteTeam_auth_error srv c details w tok e s1 hA,
      DeleteTeam_auth_error srv c details (World.fresh w.server) tok e s1 hA]
    simp [World.fresh]
  · rw [DeleteTeam_destroy srv c details w tok s1 de s2 hA hD,
      DeleteTeam_destroy srv c details (World.fresh w.server) tok s1 de s2 hA hD]
    simp [World.fresh]

/-! ## The claims, continued -/

/-- C11: every create-or-update request `CreateTeam` issues carries a team
configuration that authorizes exactly one platform space: its CFSpaces list has
length 1 and its only element is the SpaceGUID of the details passed to the
call. -/
theorem CreateTeam_single_space {σ : Type} (srv : CIServer σ) (c : concourseClient)
    (details : Details) (s : σ) (th : TeamHandle) (config saved : Team)
    (created updated : Bool) (ce : Option GoError)
    (hsent : Event.CreateOrUpdate th config saved created updated ce ∈
      (CreateTeam srv c details (World.fresh s)).2.calls) :
    ∃ uaa : UAAAuth, config.UAAAuth = some uaa ∧ uaa.CFSpaces.length = 1 ∧
      uaa.CFSpaces = [details.SpaceGUID] := by
  rcases CreateTeam_cases srv c details (World.fresh s) with
    ⟨tok, e, s1, hA⟩ | ⟨tok, s1, ms, le, s2, hA, hL, hex⟩ |
    ⟨tok, s1, le, s2, sv, cr, up, ce2, s3, hA, hL, hC⟩
  · rw [CreateTeam_auth_error srv c details _ tok e s1 hA] at hsent
    simp [World.fresh] at hsent
  · rw [CreateTeam_existing srv c details _ tok s1 ms le s2 hA hL hex] at hsent
    simp [World.fresh] at hsent
  · rw [CreateTeam_absent srv c details _ tok s1 le s2 sv cr up ce2 s3 hA hL hC] at hsent
    simp [World.fresh] at hsent
    obtain ⟨-, rfl, -⟩ := hsent
    exact ⟨_, rfl, rfl, rfl⟩

/-- C11 at a server that answers not-found and then creates the team. -/
theorem CreateTeam_single_space_witness :
    ∃ uaa : UAAAuth, (teamConfig sampleClient acme).UAAAuth = some uaa ∧
      uaa.CFSpaces.length = 1 ∧ uaa.CFSpaces = ["s1"] :=
  CreateTeam_single_space
    (cannedServer (bearer, none) ([], some resourceNotFound) ({}, true, false, none) none)
    sampleClient acme () ((authClient sampleClient bearer).Team "acme")
    (teamConfig sampleClient acme) {} true false none (by decide)

/-- C12: when the token exchange succeeds, `DeleteTeam` returns exactly what the
destroy-team request returns: nil for nil, and the same error when it fails; a
destroy failure is never turned into success. -/
theorem DeleteTeam_passes_through {σ : Type} (srv : CIServer σ) (c : concourseClient)
    (details : Details) (s : σ) (tok : AuthToken) (s1 : σ) (de : Option GoError) (s2 : σ)
    (hA : srv.AuthToken (c.client.Team adminTeam) s = ((tok, none), s1))
    (hD : srv.DestroyTeam ((authClient c tok).Team (getTeamName c details))
      (getTeamName c details) s1 = (de, s2)) :
    (DeleteTeam srv c details (World.fresh s)).1 = de ∧
      (de ≠ none → (DeleteTeam srv c details (World.fresh s)).1 ≠ none) ∧
      Event.DestroyTeam ((authClient c tok).Team (getTeamName c details))
        (getTeamName c details) de ∈ (DeleteTeam srv c details (World.fresh s)).2.calls := by
  rw [DeleteTeam_destroy srv c details (World.fresh s) tok s1 de s2 hA hD]
  refine ⟨rfl, fun h => h, ?_⟩
  simp [World.fresh, getTeamName]

/-- C12 on the in-memory CI server with no team: the not-found error of the
destroy request is what `DeleteTeam` returns. -/
theorem DeleteTeam_passes_through_witness :
    (DeleteTeam memoryServer sampleClient acme (World.fresh [])).1 = some resourceNotFound :=
  (DeleteTeam_passes_through memoryServer sampleClient acme [] bearer []
    (some resourceNotFound) [] rfl rfl).1

/-- C13: the destroy-team request `DeleteTeam` issues targets the derived team
name, both in the team handle it is issued on and in the name it passes; the
existence query and the create-or-update request of `CreateTeam` for the same
details are issued on handles of that same name. -/
theorem DeleteTeam_targets_team_name {σ : Type} (srv : CIServer σ) (c : concourseClient)
    (details : Details) (s : σ) :
    (∀ (th : TeamHandle) (name : String) (de : Option GoError),
      Event.DestroyTeam th name de ∈ (DeleteTeam srv c details (World.fresh s)).2.calls →
        th.name = getTeamName c details ∧ name = getTeamName c details) ∧
    (∀ ev ∈ (CreateTeam srv c details (World.fresh s)).2.calls,
      ev.isListAuthMethods = true ∨ ev.isCreateOrUpdate = true →
        ev.team.name = getTeamName c details) := by
  constructor
  · intro th name de hmem
    rcases DeleteTeam_cases srv c details (World.fresh s) with
      ⟨tok, e, s1, hA⟩ | ⟨tok, s1, de2, s2, hA, hD⟩
    · rw [DeleteTeam_auth_error srv c details _ tok e s1 hA] at hmem
      simp [World.fresh] at hmem
    · rw [DeleteTeam_destroy srv c details _ tok s1 de2 s2 hA hD] at hmem
      simp [World.fresh] at hmem
      obtain ⟨rfl, rfl, -⟩ := hmem
      simp [Client.Team, getTeamName]
  · intro ev hmem hkind
    rcases CreateTeam_cases srv c details (World.fresh s) with
      ⟨tok, e, s1, hA⟩ | ⟨tok, s1, ms, le, s2, hA, hL, hex⟩ |
      ⟨tok, s1, le, s2, sv, cr, up, ce, s3, hA, hL, hC⟩
    · rw [CreateTeam_auth_error srv c details _ tok e s1 hA] at hmem
      simp [World.fresh] at hmem
      subst hmem
      simp [Event.isListAuthMethods, Event.isCreateOrUpdate] at hkind
    · rw [CreateTeam_existing srv c details _ tok s1 ms le s2 hA hL hex] at hmem
      simp [World.fresh] at hmem
      rcases hmem with rfl | rfl
      · simp [Event.isListAuthMethods, Event.isCreateOrUpdate] at hkind
      · simp [Event.team, Client.Team]
    · rw [CreateTeam_absent srv c details _ tok s1 le s2 sv cr up ce s3 hA hL hC] at hmem
      simp [World.fresh] at hmem
      rcases hmem with rfl | rfl | rfl
      · simp [Event.isListAuthMethods, Event.isCreateOrUpdate] at hkind
      · simp [Event.team, Client.Team]
      · simp [Event.team, Client.Team]

/-- C14: every `CreateTeam` and every `DeleteTeam` call, whatever was requested
before it, starts with one token exchange on the administrative team "main" of
the admin client, issues no other token exchange, and issues every later
request on a client built from the configured URL and exactly the token type
and value that exchange answered. -/
theorem each_call_exchanges_its_own_token {σ : Type} (srv : CIServer σ)
    (c : concourseClient) (details : Details) (w : World σ) :
    (∃ (tok : AuthToken) (err : Option GoError) (rest : List Event),
      (srv.AuthToken (c.client.Team "main") w.server).1 = (tok, err) ∧
      (CreateTeam srv c details w).2.calls =
        w.calls ++ Event.AuthToken (c.client.Team "main") tok err :: rest ∧
      ∀ ev ∈ rest, ev.isAuthToken = false ∧
        ev.team.client =
          NewConcourseClient c.env.ConcourseURL (newOAuthClient tok.Type_ tok.Value)) ∧
    (∃ (tok : AuthToken) (err : Option GoError) (rest : List Event),
      (srv.AuthToken (c.client.Team "main") w.server).1 = (tok, err) ∧
      (DeleteTeam srv c details w).2.calls =
        w.calls ++ Event.AuthToken (c.client.Team "main") tok err :: rest ∧
      ∀ ev ∈ rest, ev.isAuthToken = false ∧
        ev.team.client =
          NewConcourseClient c.env.ConcourseURL (newOAuthClient tok.Type_ tok.Value)) := by
  constructor
  · rcases CreateTeam_cases srv c details w with
      ⟨tok, e, s1, hA⟩ | ⟨tok, s1, ms, le, s2, hA, hL, hex⟩ |
      ⟨tok, s1, le, s2, sv, cr, up, ce, s3, hA, hL, hC⟩
    · refine ⟨tok, some e, [], ?_, ?_, ?_⟩
      · have h := congrArg Prod.fst hA
        simpa [adminTeam] using h
      · rw [CreateTeam_auth_error srv c details w tok e s1 hA]
        simp [adminTeam]
      · simp
    · refine ⟨tok, none,
        [Event.ListAuthMethods ((authClient c tok).Team (getTeamName c details)) ms le], ?_, ?_, ?_⟩
      · have h := congrArg Prod.fst hA
        simpa [adminTeam] using h
      · rw [CreateTeam_existing srv c details w tok s1 ms le s2 hA hL hex]
        simp only [adminTeam, List.cons_append, List.nil_append, List.append_cancel_left_eq,
          List.cons.injEq, true_and]
      · simp [Event.isAuthToken, Event.team, Client.Team, authClient]
    · refine ⟨tok, none,
        [Event.ListAuthMethods ((authClient c tok).Team (getTeamName c details)) [] (some le),
        Event.CreateOrUpdate ((authClient c tok).Team (getTeamName c details))
          (teamConfig c details) sv cr up ce], ?_, ?_, ?_⟩
      · have h := congrArg Prod.fst hA
        simpa [adminTeam] using h
      · rw [CreateTeam_absent srv c details w tok s1 le s2 sv cr up ce s3 hA hL hC]
        simp only [adminTeam, List.cons_append, List.nil_append, List.append_cancel_left_eq,
          List.cons.injEq, true_and]
      · simp [Event.isAuthToken, Event.team, Client.Team, authClient]
  · rcases DeleteTeam_cases srv c details w with
      ⟨tok, e, s1, hA⟩ | ⟨tok, s1, de, s2, hA, hD⟩
    · refine ⟨tok, some e, [], ?_, ?_, ?_⟩
      · have h := congrArg Prod.fst hA
        simpa [adminTeam] using h
      · rw [DeleteTeam_auth_error srv c details w tok e s1 hA]
        simp [adminTeam]
      · simp
    · refine ⟨tok, none,
        [Event.DestroyTeam ((authClient c tok).Team details.OrgName)
        (getTeamName c details) de], ?_, ?_, ?_⟩
      · have h := congrArg Prod.fst hA
        simpa [adminTeam] using h
      · rw [DeleteTeam_destroy srv c details w tok s1 de s2 hA hD]
        simp only [adminTeam, List.cons_append, List.nil_append, List.append_cancel_left_eq,
          List.cons.injEq, true_and]
      · simp [Event.isAuthToken, Event.team, Client.Team, authClient]

/-- C15: the Team Client never retries and never reorders: the operations of a
`CreateTeam` call are a prefix of token exchange, existence query,
create-or-update, those of a `DeleteTeam` call a prefix of token exchange,
destroy team, and each operation occurs at most once per call. -/
theorem calls_in_order_at_most_once {σ : Type} (srv : CIServer σ)
    (c : concourseClient) (details : Details) (s : σ) :
    ((CreateTeam srv c details (World.fresh s)).2.calls.map Event.operation <+:
        [Operation.AuthToken, Operation.ListAuthMethods, Operation.CreateOrUpdate] ∧
      authTokenCount (CreateTeam srv c details (World.fresh s)).2.calls ≤ 1 ∧
      listAuthMethodsCount (CreateTeam srv c details (World.fresh s)).2.calls ≤ 1 ∧
      createOrUpdateCount (CreateTeam srv c details (World.fresh s)).2.calls ≤ 1 ∧
      destroyTeamCount (CreateTeam srv c details (World.fresh s)).2.calls = 0) ∧
    ((DeleteTeam srv c details (World.fresh s)).2.calls.map Event.operation <+:
        [Operation.AuthToken, Operation.DestroyTeam] ∧
      authTokenCount (DeleteTeam srv c details (World.fresh s)).2.calls ≤ 1 ∧
      destroyTeamCount (DeleteTeam srv c details (World.fresh s)).2.calls ≤ 1 ∧
      listAuthMethodsCount (DeleteTeam srv c details (World.fresh s)).2.calls = 0 ∧
      createOrUpdateCount (DeleteTeam srv c details (World.fresh s)).2.calls = 0) := by
  constructor
  · rcases CreateTeam_cases srv c details (World.fresh s) with
      ⟨tok, e, s1, hA⟩ | ⟨tok, s1, ms, le, s2, hA, hL, hex⟩ |
      ⟨tok, s1, le, s2, sv, cr, up, ce, s3, hA, hL, hC⟩
    · rw [CreateTeam_auth_error srv c details _ tok e s1 hA]
      refine ⟨⟨[Operation.ListAuthMethods, Operation.CreateOrUpdate], rfl⟩, ?_⟩
      simp [World.fresh, authTokenCount, listAuthMethodsCount, createOrUpdateCount,
        destroyTeamCount, Event.isAuthToken, Event.isListAuthMethods,
        Event.isCreateOrUpdate, Event.isDestroyTeam]
    · rw [CreateTeam_existing srv c details _ tok s1 ms le s2 hA hL hex]
      refine ⟨⟨[Operation.CreateOrUpdate], rfl⟩, ?_⟩
      simp [World.fresh, authTokenCount, listAuthMethodsCount, createOrUpdateCount,
        destroyTeamCount, Event.isAuthToken, Event.isListAuthMethods,
        Event.isCreateOrUpdate, Event.isDestroyTeam]
    · rw [CreateTeam_absent srv c details _ tok s1 le s2 sv cr up ce s3 hA hL hC]
      refine ⟨⟨[], rfl⟩, ?_⟩
      simp [World.fresh, authTokenCount, listAuthMethodsCount, createOrUpdateCount,
        destroyTeamCount, Event.isAuthToken, Event.isListAuthMethods,
        Event.isCreateOrUpdate, Event.isDestroyTeam]
  · rcases DeleteTeam_cases srv c details (World.fresh s) with
      ⟨tok, e, s1, hA⟩ | ⟨tok, s1, de, s2, hA, hD⟩
    · rw [DeleteTeam_auth_error srv c details _ tok e s1 hA]
      refine ⟨⟨[Operation.DestroyTeam], rfl⟩, ?_⟩
      simp [World.fresh, authTokenCount, listAuthMethodsCount, createOrUpdateCount,
        destroyTeamCount, Event.isAuthToken, Event.isListAuthMethods,
        Event.isCreateOrUpdate, Event.isDestroyTeam]
    · rw [DeleteTeam_destroy srv c details _ tok s1 de s2 hA hD]
      refine ⟨⟨[], rfl⟩, ?_⟩
      simp [World.fresh, authTokenCount, listAuthMethodsCount, createOrUpdateCount,
        destroyTeamCount, Event.isAuthToken, Event.isListAuthMethods,
        Event.isCreateOrUpdate, Event.isDestroyTeam]

/-- C16: no error of the token exchange, of create-or-update or of destroy is
swallowed: when one of these requests of a `CreateTeam` or `DeleteTeam` call
answers an error, the call returns that same error. -/
theorem request_errors_are_returned {σ : Type} (srv : CIServer σ)
    (c : concourseClient) (details : Details) (s : σ) (e : GoError) :
    (∀ (th : TeamHandle) (tok : AuthToken),
      Event.AuthToken th tok (some e) ∈ (CreateTeam srv c details (World.fresh s)).2.calls →
        (CreateTeam srv c details (World.fresh s)).1 = some e) ∧
    (∀ (th : TeamHandle) (config saved : Team) (created updated : Bool),
      Event.CreateOrUpdate th config saved created updated (some e) ∈
          (CreateTeam srv c details (World.fresh s)).2.calls →
        (CreateTeam srv c details (World.fresh s)).1 = some e) ∧
    (∀ (th : TeamHandle) (tok : AuthToken),
      Event.AuthToken th tok (some e) ∈ (DeleteTeam srv c details (World.fresh s)).2.calls →
        (DeleteTeam srv c details (World.fresh s)).1 = some e) ∧
    (∀ (th : TeamHandle) (name : String),
      Event.DestroyTeam th name (some e) ∈ (DeleteTeam srv c details (World.fresh s)).2.calls →
        (DeleteTeam srv c details (World.fresh s)).1 = some e) := by
  refine ⟨?_, ?_, ?_, ?_⟩
  · intro th tok0 hmem
    rcases CreateTeam_cases srv c details (World.fresh s) with
      ⟨tok, e1, s1, hA⟩ | ⟨tok, s1, ms, le, s2, hA, hL, hex⟩ |
      ⟨tok, s1, le, s2, sv, cr, up, ce, s3, hA, hL, hC⟩
    · rw [CreateTeam_auth_error srv c details _ tok e1 s1 hA] at hmem ⊢
      simp [World.fresh] at hmem
      simp [hmem.2.2]
    · rw [CreateTeam_existing srv c details _ tok s1 ms le s2 hA hL hex] at hmem
      simp [World.fresh] at hmem
    · rw [CreateTeam_absent srv c details _ tok s1 le s2 sv cr up ce s3 hA hL hC] at hmem
      simp [World.fresh] at hmem
  · intro th config saved created updated hmem
    rcases CreateTeam_cases srv c details (World.fresh s) with
      ⟨tok, e1, s1, hA⟩ | ⟨tok, s1, ms, le, s2, hA, hL, hex⟩ |
      ⟨tok, s1, le, s2, sv, cr, up, ce, s3, hA, hL, hC⟩
    · rw [CreateTeam_auth_error srv c details _ tok e1 s1 hA] at hmem
      simp [World.fresh] at hmem
    · rw [CreateTeam_existing srv c details _ tok s1 ms le s2 hA hL hex] at hmem
      simp [World.fresh] at hmem
    · rw [CreateTeam_absent srv c details _ tok s1 le s2 sv cr up ce s3 hA hL hC] at hmem ⊢
      simp [World.fresh] at hmem
      obtain ⟨-, -, -, -, -, rfl⟩ := hmem
      simp [createOutcome]
  · intro th tok0 hmem
    rcases DeleteTeam_cases srv c details (World.fresh s) with
      ⟨tok, e1, s1, hA⟩ | ⟨tok, s1, de, s2, hA, hD⟩
    · rw [DeleteTeam_auth_error srv c details _ tok e1 s1 hA] at hmem ⊢
      simp [World.fresh] at hmem
      simp [hmem.2.2]
    · rw [DeleteTeam_destroy srv c details _ tok s1 de s2 hA hD] at hmem
      simp [World.fresh] at hmem
  · intro th name hmem
    rcases DeleteTeam_cases srv c details (World.fresh s) with
      ⟨tok, e1, s1, hA⟩ | ⟨tok, s1, de, s2, hA, hD⟩
    · rw [DeleteTeam_auth_error srv c details _ tok e1 s1 hA] at hmem
      simp [World.fresh] at hmem
    · rw [DeleteTeam_destroy srv c details _ tok s1 de s2 hA hD] at hmem ⊢
      simp [World.fresh] at hmem
      simp [hmem.2.2]

/-- C16 at a server whose create-or-update answers an error, and at one whose
destroy answers an error. -/
theorem request_errors_are_returned_witness :
    (CreateTeam (cannedServer (bearer, none) ([], some resourceNotFound)
        ({}, false, false, some { msg := "502 Bad Gateway" }) none)
        sampleClient acme (World.fresh ())).1 = some { msg := "502 Bad Gateway" } ∧
      (DeleteTeam (cannedServer (bearer, none) ([], some resourceNotFound)
        ({}, false, false, some { msg := "502 Bad Gateway" })
        (some { msg := "502 Bad Gateway" }))
        sampleClient acme (World.fresh ())).1 = some { msg := "502 Bad Gateway" } :=
  ⟨(request_errors_are_returned
      (cannedServer (bearer, none) ([], some resourceNotFound)
        ({}, false, false, some { msg := "502 Bad Gateway" }) none)
      sampleClient acme () { msg := "502 Bad Gateway" }).2.1
      ((authClient sampleClient bearer).Team "acme") (teamConfig sampleClient acme) {}
      false false (by decide),
   (request_errors_are_returned
      (cannedServer (bearer, none) ([], some resourceNotFound)
        ({}, false, false, some { msg := "502 Bad Gateway" })
        (some { msg := "502 Bad Gateway" }))
      sampleClient acme () { msg := "502 Bad Gateway" }).2.2.2
      ((authClient sampleClient bearer).Team "acme") "acme" (by decide)⟩

/-- The history of a world does not influence a call on the client. -/
theorem perform_frame {σ : Type} (srv : CIServer σ) (c : concourseClient)
    (call : ClientCall) (w : World σ) :
    call.perform srv c w =
      ((call.perform srv c (World.fresh w.server)).1,
        { server := (call.perform srv c (World.fresh w.server)).2.server,
          calls := w.calls ++ (call.perform srv c (World.fresh w.server)).2.calls,
          logs := w.logs ++ (call.perform srv c (World.fresh w.server)).2.logs }) := by
  cases call with
  | CreateTeam details => exact CreateTeam_frame srv c details w
  | DeleteTeam details => exact DeleteTeam_frame srv c details w

/-- C17: `CreateTeam` and `DeleteTeam` keep no state. The client is the same
value before and after every call, and a call made after any sequence of
earlier calls on that client returns what it returns in a fresh world of the
same CI-server state, leaves the server in the same state, and adds the same
requests and log lines. -/
theorem calls_keep_no_state {σ : Type} (srv : CIServer σ) (c : concourseClient)
    (earlier : List ClientCall) (call : ClientCall) (w : World σ) :
    (call.perform srv c (performAll srv c earlier w)).1 =
        (call.perform srv c (World.fresh (performAll srv c earlier w).server)).1 ∧
      (call.perform srv c (performAll srv c earlier w)).2.server =
        (call.perform srv c (World.fresh (performAll srv c earlier w).server)).2.server ∧
      (call.perform srv c (performAll srv c earlier w)).2.calls =
        (performAll srv c earlier w).calls ++
          (call.perform srv c (World.fresh (performAll srv c earlier w).server)).2.calls ∧
      (call.perform srv c (performAll srv c earlier w)).2.logs =
        (performAll srv c earlier w).logs ++
          (call.perform srv c (World.fresh (performAll srv c earlier w).server)).2.logs := by
  rw [perform_frame srv c call (performAll srv c earlier w)]
  exact ⟨rfl, rfl, rfl, rfl⟩

/-- C18: `Provision` maps the outcome of `CreateTeam` onto three broker
outcomes: success gives created, the team-already-exists error gives conflict,
every other client error gives an internal error carrying it, and no client
error is reported as created. -/
theorem Provision_three_outcomes {σ : Type} (srv : CIServer σ) (c : concourseClient)
    (instanceID : String) (details : Details) (w : World σ) :
    ((CreateTeam srv c details w).1 = none →
      (Provision srv c instanceID details w).1 = ProvisionOutcome.created) ∧
    ((CreateTeam srv c details w).1 = some (teamAlreadyExists (getTeamName c details)) →
      (Provision srv c instanceID details w).1 = ProvisionOutcome.conflict) ∧
    (∀ e : GoError, (CreateTeam srv c details w).1 = some e →
      e ≠ teamAlreadyExists (getTeamName c details) →
      (Provision srv c instanceID details w).1 = ProvisionOutcome.internalError e) ∧
    (∀ e : GoError, (CreateTeam srv c details w).1 = some e →
      (Provision srv c instanceID details w).1 ≠ ProvisionOutcome.created) ∧
    (Provision srv c instanceID details w).2 = (CreateTeam srv c details w).2 := by
  unfold Provision
  rcases hrun : CreateTeam srv c details w with ⟨result, w1⟩
  cases result with
  | none => simp
  | some err =>
    by_cases hex : err = teamAlreadyExists (getTeamName c details)
    · simp [hex]
    · simp only [hex, if_false]
      refine ⟨by simp, ?_, ?_, by simp, trivial⟩
      · intro h
        exact absurd (Option.some.inj h) hex
      · intro e he _
        rw [Option.some.inj he]

/-- C18 on the in-memory CI server: a first provision is created, a second one
for the same details is a conflict. -/
theorem Provision_three_outcomes_witness :
    (Provision memoryServer sampleClient "instance-1" acme (World.fresh [])).1 =
        ProvisionOutcome.created ∧
      (Provision memoryServer sampleClient "instance-2" acme
        (Provision memoryServer sampleClient "instance-1" acme (World.fresh [])).2).1 =
        ProvisionOutcome.conflict :=
  ⟨(Provision_three_outcomes memoryServer sampleClient "instance-1" acme
      (World.fresh [])).1 rfl,
   (Provision_three_outcomes memoryServer sampleClient "instance-2" acme
      (Provision memoryServer sampleClient "instance-1" acme (World.fresh [])).2).2.1 rfl⟩

/-- C19: the platform OAuth identity of every team configuration `CreateTeam`
sends comes from the process configuration alone: ClientID, ClientSecret,
AuthURL, TokenURL and CFURL are the configured values, the CA certificate is
empty, no basic, GitHub or generic OAuth method is set, and two calls on the
same client for any two details send the same identity. -/
theorem CreateTeam_identity_from_config {σ τ : Type} (srv : CIServer σ)
    (srv2 : CIServer τ) (c : concourseClient) (details details2 : Details) (s : σ) (s2 : τ)
    (th th2 : TeamHandle) (config saved config2 saved2 : Team)
    (created updated created2 updated2 : Bool) (ce ce2 : Option GoError)
    (hsent : Event.CreateOrUpdate th config saved created updated ce ∈
      (CreateTeam srv c details (World.fresh s)).2.calls)
    (hsent2 : Event.CreateOrUpdate th2 config2 saved2 created2 updated2 ce2 ∈
      (CreateTeam srv2 c details2 (World.fresh s2)).2.calls) :
    (∃ uaa : UAAAuth, config.UAAAuth = some uaa ∧
      uaa.ClientID = c.env.ClientID ∧ uaa.ClientSecret = c.env.ClientSecret ∧
      uaa.AuthURL = c.env.AuthURL ∧ uaa.TokenURL = c.env.TokenURL ∧
      uaa.CFURL = c.env.CFURL ∧ uaa.CFCACert = "") ∧
    config.BasicAuth = none ∧ config.GitHubAuth = none ∧ config.GenericOAuth = none ∧
    config.identity = config2.identity := by
  have hconfig : ∀ {ρ : Type} (sv : CIServer ρ) (d : Details) (r : ρ) (h : TeamHandle)
      (cfg svd : Team) (cr up : Bool) (e : Option GoError),
      Event.CreateOrUpdate h cfg svd cr up e ∈ (CreateTeam sv c d (World.fresh r)).2.calls →
      cfg = teamConfig c d := by
    intro ρ sv d r h cfg svd cr up e hmem
    rcases CreateTeam_cases sv c d (World.fresh r) with
      ⟨tok, e1, r1, hA⟩ | ⟨tok, r1, ms, le, r2, hA, hL, hex⟩ |
      ⟨tok, r1, le, r2, sv1, cr1, up1, ce1, r3, hA, hL, hC⟩
    · rw [CreateTeam_auth_error sv c d _ tok e1 r1 hA] at hmem
      simp [World.fresh] at hmem
    · rw [CreateTeam_existing sv c d _ tok r1 ms le r2 hA hL hex] at hmem
      simp [World.fresh] at hmem
    · rw [CreateTeam_absent sv c d _ tok r1 le r2 sv1 cr1 up1 ce1 r3 hA hL hC] at hmem
      simp [World.fresh] at hmem
      exact hmem.2.1
  rw [hconfig srv details s th config saved created updated ce hsent,
    hconfig srv2 details2 s2 th2 config2 saved2 created2 updated2 ce2 hsent2]
  refine ⟨⟨_, rfl, rfl, rfl, rfl, rfl, rfl, rfl⟩, rfl, rfl, rfl, ?_⟩
  simp [Team.identity, teamConfig]

/-- C19 at two tenants of different spaces: the configurations sent differ, the
identities are the same. -/
theorem CreateTeam_identity_from_config_witness :
    teamConfig sampleClient acme ≠ teamConfig sampleClient acmeTwin ∧
      (teamConfig sampleClient acme).identity = (teamConfig sampleClient acmeTwin).identity :=
  ⟨by decide,
   (CreateTeam_identity_from_config
      (cannedServer (bearer, none) ([], some resourceNotFound) ({}, true, false, none) none)
      (cannedServer (bearer, none) ([], some resourceNotFound) ({}, true, false, none) none)
      sampleClient acme acmeTwin () ()
      ((authClient sampleClient bearer).Team "acme")
      ((authClient sampleClient bearer).Team "acme")
      (teamConfig sampleClient acme) {} (teamConfig sampleClient acmeTwin) {}
      true false true false none none (by decide) (by decide)).2.2.2.2⟩

/-! ## The retry step -/

/-- The retry loop, started on a list whose attempt `n + 1` is the first to
succeed and in which no earlier attempt is interrupted, runs exactly the
attempts up to that one, in order, and answers nil. -/
theorem RetryStep_loop_first_success {σ : Type} (rest : List (Step σ)) :
    ∀ (n position : Nat) (step : RetryStep σ) (attemptErr : Option ExecError)
      (x : Execution σ),
      (outcomes rest x.state)[n]? = some AttemptOutcome.succeeded →
      AttemptOutcome.succeeded ∉ (outcomes rest x.state).take n →
      AttemptOutcome.interrupted ∉ (outcomes rest x.state).take n →
      (RetryStep.loop rest position step attemptErr x).1 = none ∧
        (RetryStep.loop rest position step attemptErr x).2.2.ran =
          x.ran ++ List.range' position (n + 1) ∧
        (RetryStep.loop rest position step attemptErr x).2.1.LastAttempt = rest[n]? := by
  induction rest with
  | nil =>
    intro n position step attemptErr x h1
    simp [outcomes] at h1
  | cons a rest ih =>
    intro n position step attemptErr x h1 h2 h3
    rcases hrun : a.Run x.state with ⟨err, s1⟩
    rcases hres : a.Result DestType.Success false s1 with ⟨⟨ok, succeeded⟩, s2⟩
    cases n with
    | zero =>
      cases err with
      | some e =>
        cases e <;> simp [outcomes, Step.attempt, hrun] at h1
      | none =>
        by_cases hok : (ok && succeeded) = true
        · simp [RetryStep.loop, hrun, hres, hok]
        · simp [outcomes, Step.attempt, hrun, hres, hok] at h1
    | succ n =>
      cases err with
      | some e =>
        cases e with
        | ErrInterrupted => simp [outcomes, Step.attempt, hrun] at h3
        | other e =>
          have hstate : (a.attempt x.state).2 = s1 := by simp [Step.attempt, hrun]
          simp only [outcomes, hstate, List.getElem?_cons_succ, List.take_succ_cons,
            List.mem_cons, not_or] at h1 h2 h3
          have hrest := ih n (position + 1) { step with LastAttempt := some a }
            (some (ExecError.other e))
            { state := s1, ran := x.ran ++ [position], consulted := x.consulted }
            h1 h2.2 h3.2
          simp only [RetryStep.loop, hrun]
          refine ⟨hrest.1, ?_, ?_⟩
          · rw [hrest.2.1]
            simp [List.range'_succ]
          · rw [hrest.2.2]
            simp
      | none =>
        by_cases hok : (ok && succeeded) = true
        · simp [outcomes, Step.attempt, hrun, hres, hok] at h2
        · have hstate : (a.attempt x.state).2 = s2 := by
            simp [Step.attempt, hrun, hres, hok]
          simp only [outcomes, hstate, List.getElem?_cons_succ, List.take_succ_cons,
            List.mem_cons, not_or] at h1 h2 h3
          have hrest := ih n (position + 1) { step with LastAttempt := some a } none
            { state := s2, ran := x.ran ++ [position],
              consulted := x.consulted ++ [position] }
            h1 h2.2 h3.2
          simp only [RetryStep.loop, hrun, hres, hok, Bool.false_eq_true, if_false]
          refine ⟨hrest.1, ?_, ?_⟩
          · rw [hrest.2.1]
            simp [List.range'_succ]
          · rw [hrest.2.2]
            simp

/-- C20, the claim refuted: attempt 2 is the first attempt that runs without
error and reports `Success` true, yet `Run` runs attempt 1 only and returns
`ErrInterrupted`, because attempt 1 is interrupted. -/
theorem RetryStep_Run_interrupted_counterexample :
    FirstSuccessAt interruptedThenSuccess () 2 ∧
      (RetryStep.Run { Attempts := interruptedThenSuccess, LastAttempt := none }
        (Execution.fresh ())).1 = some ExecError.ErrInterrupted ∧
      (RetryStep.Run { Attempts := interruptedThenSuccess, LastAttempt := none }
        (Execution.fresh ())).2.2.ran = [1] := by
  unfold FirstSuccessAt
  decide

/-- C20 as amended: when attempt `k` is the first attempt that runs without
error and reports `Success` true and no attempt before it returns
`ErrInterrupted`, `RetryStep.Run` runs the attempts 1 to `k` in list order,
each exactly once, runs no attempt after `k`, returns nil and leaves attempt
`k` as the last attempt. -/
theorem RetryStep_Run_first_success {σ : Type} (step : RetryStep σ) (s : σ) (k : Nat)
    (hfirst : FirstSuccessAt step.Attempts s k)
    (hsteady : AttemptOutcome.interrupted ∉ (outcomes step.Attempts s).take (k - 1)) :
    (step.Run (Execution.fresh s)).1 = none ∧
      (step.Run (Execution.fresh s)).2.2.ran = List.range' 1 k ∧
      (∀ i : Nat, (step.Run (Execution.fresh s)).2.2.ran.count i =
        if 1 ≤ i ∧ i ≤ k then 1 else 0) ∧
      (step.Run (Execution.fresh s)).2.1.LastAttempt = step.Attempts[k - 1]? := by
  obtain ⟨hk, hat, hbefore⟩ := hfirst
  obtain ⟨n, rfl⟩ : ∃ n, k = n + 1 := ⟨k - 1, by omega⟩
  simp only [Nat.add_sub_cancel] at hat hbefore hsteady ⊢
  have hloop := RetryStep_loop_first_success step.Attempts n 1 step none
    (Execution.fresh s) hat hbefore hsteady
  have hran : (step.Run (Execution.fresh s)).2.2.ran = List.range' 1 (n + 1) := by
    have h := hloop.2.1
    simpa [RetryStep.Run, Execution.fresh] using h
  refine ⟨hloop.1, hran, ?_, hloop.2.2⟩
  intro i
  rw [hran]
  by_cases hi : 1 ≤ i ∧ i ≤ n + 1
  · rw [if_pos hi]
    apply List.count_eq_one_of_mem (List.nodup_range' 1 (n + 1))
    rw [List.mem_range'_1]
    omega
  · rw [if_neg hi]
    rw [List.count_eq_zero, List.mem_range'_1]
    omega

/-- C20 as amended, at the attempts of retry_test.go in which attempt 1 errors
and attempt 2 succeeds: attempts 1 and 2 are run, attempt 3 is not, and `Run`
returns nil. -/
theorem RetryStep_Run_first_success_witness :
    (RetryStep.Run { Attempts := errorThenSuccess, LastAttempt := none }
        (Execution.fresh ())).1 = none ∧
      (RetryStep.Run { Attempts := errorThenSuccess, LastAttempt := none }
        (Execution.fresh ())).2.2.ran = [1, 2] :=
  ⟨(RetryStep_Run_first_success { Attempts := errorThenSuccess, LastAttempt := none } () 2
      (by unfold FirstSuccessAt; decide) (by decide)).1,
   (RetryStep_Run_first_success { Attempts := errorThenSuccess, LastAttempt := none } () 2
      (by unfold FirstSuccessAt; decide) (by decide)).2.1⟩

/-- The outcomes of a non-empty list of attempts are a non-empty list. -/
theorem outcomes_ne_nil {σ : Type} (rest : List (Step σ)) (s : σ) (hne : rest ≠ []) :
    outcomes rest s ≠ [] := by
  cases rest with
  | nil => exact absurd rfl hne
  | cons a rest => simp [outcomes]

/-- The last element of a list with a non-empty tail is the last of the tail. -/
theorem getLast?_cons_of_ne_nil {α : Type} (a : α) (l : List α) (hne : l ≠ []) :
    (a :: l).getLast? = l.getLast? := by
  cases l with
  | nil => exact absurd rfl hne
  | cons b l => simp

/-- The retry loop, started on attempts none of which succeeds when it is run
and of which only the last may be interrupted, runs every attempt once, in
order; unless it has nothing to run, it ends with a non-nil error, or with the
last attempt as `LastAttempt`, that attempt having reported `Success` false
when asked in some state, and in the state that asking left. -/
theorem RetryStep_loop_none_succeeds {σ : Type} (rest : List (Step σ)) :
    ∀ (position : Nat) (step : RetryStep σ) (attemptErr : Option ExecError)
      (x : Execution σ),
      AttemptOutcome.succeeded ∉ outcomes rest x.state →
      AttemptOutcome.interrupted ∉ (outcomes rest x.state).dropLast →
      (RetryStep.loop rest position step attemptErr x).2.2.ran =
          x.ran ++ List.range' position rest.length ∧
        (rest ≠ [] →
          (RetryStep.loop rest position step attemptErr x).1 ≠ none ∨
          ((RetryStep.loop rest position step attemptErr x).1 = none ∧
            ∃ (a : Step σ) (asked : σ),
              rest.getLast? = some a ∧
              (RetryStep.loop rest position step attemptErr x).2.1.LastAttempt = some a ∧
              (outcomes rest x.state).getLast? = some AttemptOutcome.failed ∧
              ((a.Result DestType.Success false asked).1.1 &&
                (a.Result DestType.Success false asked).1.2) = false ∧
              (RetryStep.loop rest position step attemptErr x).2.2.state =
                (a.Result DestType.Success false asked).2)) := by
  induction rest with
  | nil =>
    intro position step attemptErr x _ _
    exact ⟨by simp [RetryStep.loop], fun h => absurd rfl h⟩
  | cons a rest ih =>
    intro position step attemptErr x hnone hsteady
    have hlen : ∀ (l : List Nat), l ++ [position] ++ List.range' (position + 1) rest.length =
        l ++ List.range' position (a :: rest).length := by
      intro l
      simp [List.range'_succ]
    rcases hrun : a.Run x.state with ⟨err, s1⟩
    rcases hres : a.Result DestType.Success false s1 with ⟨⟨ok, succeeded⟩, s2⟩
    by_cases hrest : rest = []
    · subst hrest
      cases err with
      | some e =>
        cases e with
        | ErrInterrupted =>
          exact ⟨by simp [RetryStep.loop, hrun], fun _ => Or.inl (by simp [RetryStep.loop, hrun])⟩
        | other e =>
          exact ⟨by simp [RetryStep.loop, hrun], fun _ => Or.inl (by simp [RetryStep.loop, hrun])⟩
      | none =>
        by_cases hok : (ok && succeeded) = true
        · simp [outcomes, Step.attempt, hrun, hres, hok] at hnone
        · have hok2 : (ok && succeeded) = false := by simpa using hok
          refine ⟨by simp [RetryStep.loop, hrun, hres, hok2], fun _ => Or.inr ⟨?_, a, s1, ?_⟩⟩
          · simp [RetryStep.loop, hrun, hres, hok2]
          · refine ⟨rfl, ?_, ?_, ?_, ?_⟩
            · simp [RetryStep.loop, hrun, hres, hok2]
            · simp [outcomes, Step.attempt, hrun, hres, hok2]
            · rw [hres]
              exact hok2
            · simp [RetryStep.loop, hrun, hres, hok2]
    · have hcontinue : ∀ (o : AttemptOutcome) (s3 : σ) (err2 : Option ExecError)
          (y : Execution σ),
          a.attempt x.state = (o, s3) → y.state = s3 → y.ran = x.ran ++ [position] →
          RetryStep.loop (a :: rest) position step attemptErr x =
            RetryStep.loop rest (position + 1) { step with LastAttempt := some a } err2 y →
          (RetryStep.loop (a :: rest) position step attemptErr x).2.2.ran =
              x.ran ++ List.range' position (a :: rest).length ∧
            ((a :: rest) ≠ [] →
              (RetryStep.loop (a :: rest) position step attemptErr x).1 ≠ none ∨
              ((RetryStep.loop (a :: rest) position step attemptErr x).1 = none ∧
                ∃ (b : Step σ) (asked : σ),
                  (a :: rest).getLast? = some b ∧
                  (RetryStep.loop (a :: rest) position step attemptErr x).2.1.LastAttempt =
                    some b ∧
                  (outcomes (a :: rest) x.state).getLast? = some AttemptOutcome.failed ∧
                  ((b.Result DestType.Success false asked).1.1 &&
                    (b.Result DestType.Success false asked).1.2) = false ∧
                  (RetryStep.loop (a :: rest) position step attemptErr x).2.2.state =
                    (b.Result DestType.Success false asked).2)) := by
        intro o s3 err2 y hatt hstate hran hloop
        have houts : outcomes (a :: rest) x.state = o :: outcomes rest y.state := by
          simp [outcomes, hatt, hstate]
        have hne := outcomes_ne_nil rest y.state hrest
        rw [houts] at hnone hsteady
        rw [List.dropLast_cons_of_ne_nil hne] at hsteady
        have hrec := ih (position + 1) { step with LastAttempt := some a } err2 y
          (fun h => hnone (List.mem_cons_of_mem o h))
          (fun h => hsteady (List.mem_cons_of_mem o h))
        rw [hloop, houts, getLast?_cons_of_ne_nil a rest hrest,
          getLast?_cons_of_ne_nil o _ hne]
        refine ⟨?_, fun _ => hrec.2 hrest⟩
        rw [hrec.1, hran]
        exact hlen x.ran
      cases err with
      | some e =>
        cases e with
        | ErrInterrupted =>
          exfalso
          have hatt : (a.attempt x.state).1 = AttemptOutcome.interrupted := by
            simp [Step.attempt, hrun]
          apply hsteady
          simp only [outcomes]
          rw [List.dropLast_cons_of_ne_nil (outcomes_ne_nil rest _ hrest), hatt]
          exact List.mem_cons_self _ _
        | other e =>
          exact hcontinue (AttemptOutcome.errored e) s1 (some (ExecError.other e))
            { state := s1, ran := x.ran ++ [position], consulted := x.consulted }
            (by simp [Step.attempt, hrun]) rfl rfl (by simp [RetryStep.loop, hrun])
      | none =>
        by_cases hok : (ok && succeeded) = true
        · exfalso
          apply hnone
          simp [outcomes, Step.attempt, hrun, hres, hok]
        · have hok2 : (ok && succeeded) = false := by simpa using hok
          exact hcontinue AttemptOutcome.failed s2 none
            { state := s2, ran := x.ran ++ [position],
              consulted := x.consulted ++ [position] }
            (by simp [Step.attempt, hrun, hres, hok2]) rfl rfl
            (by simp [RetryStep.loop, hrun, hres, hok2])

/-- C21, the claim refuted, twice. With the attempts interrupted, erroring, no
attempt succeeds, yet `Run` runs attempt 1 only and attempt 2 zero times,
because attempt 1 is interrupted. With one attempt that reports `Success` false
when the loop asks it and true when asked again, no attempt succeeds and `Run`
returns nil, yet `Result` reports `Success` true after `Run`. -/
theorem RetryStep_Run_all_fail_counterexample :
    (interruptedThenError ≠ [] ∧
      outcomes interruptedThenError () =
        [AttemptOutcome.interrupted, AttemptOutcome.errored { msg := "nope" }] ∧
      (RetryStep.Run { Attempts := interruptedThenError, LastAttempt := none }
        (Execution.fresh ())).2.2.ran = [1] ∧
      (RetryStep.Run { Attempts := interruptedThenError, LastAttempt := none }
        (Execution.fresh ())).2.2.ran.count 2 = 0) ∧
    (outcomes [fickleStep] 0 = [AttemptOutcome.failed] ∧
      (RetryStep.Run { Attempts := [fickleStep], LastAttempt := none }
        (Execution.fresh 0)).1 = none ∧
      (RetryStep.Run { Attempts := [fickleStep], LastAttempt := none }
        (Execution.fresh 0)).2.2.ran = [1] ∧
      RetryStep.Result
        (RetryStep.Run { Attempts := [fickleStep], LastAttempt := none }
          (Execution.fresh 0)).2.1 DestType.Success false
        (RetryStep.Run { Attempts := [fickleStep], LastAttempt := none }
          (Execution.fresh 0)).2.2.state = some ((true, true), 2)) := by
  refine ⟨⟨by simp [interruptedThenError], by decide, by decide, by decide⟩,
    by decide, by decide, by decide, rfl⟩

/-- C21 as amended: for a non-empty list of attempts none of which succeeds
when the loop runs it (each returns an error or reports `Success` false) and
of which none but the last returns `ErrInterrupted`, `RetryStep.Run` runs every
attempt exactly once, in list order, and ends in one of two ways: it returns a
non-nil error, or it returns nil with `Result` delegating to the last attempt,
which reported `Success` false to the loop. The retry step is then a failure
(`Run` returns a non-nil error or `Result` reports `Success` as false after
`Run`), provided that a last attempt that reported `Success` false to the loop
reports the same when it is asked again. -/
theorem RetryStep_Run_all_fail {σ : Type} (step : RetryStep σ) (s : σ)
    (hne : step.Attempts ≠ [])
    (hnone : AttemptOutcome.succeeded ∉ outcomes step.Attempts s)
    (hsteady : AttemptOutcome.interrupted ∉ (outcomes step.Attempts s).dropLast) :
    (step.Run (Execution.fresh s)).2.2.ran = List.range' 1 step.Attempts.length ∧
      (∀ i : Nat, (step.Run (Execution.fresh s)).2.2.ran.count i =
        if 1 ≤ i ∧ i ≤ step.Attempts.length then 1 else 0) ∧
      ((step.Run (Execution.fresh s)).1 ≠ none ∨
        ((step.Run (Execution.fresh s)).1 = none ∧
          (outcomes step.Attempts s).getLast? = some AttemptOutcome.failed ∧
          ∃ a : Step σ, step.Attempts.getLast? = some a ∧
            (step.Run (Execution.fresh s)).2.1.LastAttempt = some a ∧
            ∀ (t : DestType) (v : t.Val) (s1 : σ),
              (step.Run (Execution.fresh s)).2.1.Result t v s1 = some (a.Result t v s1))) ∧
      (∀ a : Step σ, step.Attempts.getLast? = some a →
        ((outcomes step.Attempts s).getLast? = some AttemptOutcome.failed → a.AnswersAgain) →
        RetryStep.Failed (step.Run (Execution.fresh s)).1
          (step.Run (Execution.fresh s)).2.1 (step.Run (Execution.fresh s)).2.2.state) := by
  have hloop := RetryStep_loop_none_succeeds step.Attempts 1 step none (Execution.fresh s)
    hnone hsteady
  have hran : (step.Run (Execution.fresh s)).2.2.ran =
      List.range' 1 step.Attempts.length := by
    have h := hloop.1
    simpa [RetryStep.Run, Execution.fresh] using h
  have hend : (step.Run (Execution.fresh s)).1 ≠ none ∨
      ((step.Run (Execution.fresh s)).1 = none ∧
        ∃ (a : Step σ) (asked : σ),
          step.Attempts.getLast? = some a ∧
          (step.Run (Execution.fresh s)).2.1.LastAttempt = some a ∧
          (outcomes step.Attempts s).getLast? = some AttemptOutcome.failed ∧
          ((a.Result DestType.Success false asked).1.1 &&
            (a.Result DestType.Success false asked).1.2) = false ∧
          (step.Run (Execution.fresh s)).2.2.state =
            (a.Result DestType.Success false asked).2) := hloop.2 hne
  refine ⟨hran, ?_, ?_, ?_⟩
  · intro i
    rw [hran]
    by_cases hi : 1 ≤ i ∧ i ≤ step.Attempts.length
    · rw [if_pos hi]
      apply List.count_eq_one_of_mem (List.nodup_range' 1 step.Attempts.length)
      rw [List.mem_range'_1]
      omega
    · rw [if_neg hi]
      rw [List.count_eq_zero, List.mem_range'_1]
      omega
  · rcases hend with herr | ⟨hnil, a, asked, hlast, hattempt, hout, -, -⟩
    · exact Or.inl herr
    · refine Or.inr ⟨hnil, hout, a, hlast, hattempt, ?_⟩
      intro t v s1
      simp [RetryStep.Result, hattempt]
  · intro b hb hagain
    rcases hend with herr | ⟨-, a, asked, hlast, hattempt, hout, hreport, hstate⟩
    · exact Or.inl herr
    · right
      have hab : a = b := by
        rw [hlast] at hb
        exact Option.some.inj hb
      subst hab
      intro v
      refine ⟨a.Result DestType.Success v (step.Run (Execution.fresh s)).2.2.state, ?_, ?_⟩
      · simp [RetryStep.Result, hattempt]
      · rw [hstate, hagain hout v asked]
        exact hreport

/-- C21 as amended, at the attempts of retry_test.go in which attempts 1 and 2
fail and attempt 3 errors: the three attempts are run once each and `Run`
returns the error of attempt 3; and at two attempts that both fail: both are
run once and the retry step is a failure. -/
theorem RetryStep_Run_all_fail_witness :
    ((RetryStep.Run { Attempts := failFailError, LastAttempt := none }
        (Execution.fresh ())).2.2.ran = [1, 2, 3] ∧
      (RetryStep.Run { Attempts := failFailError, LastAttempt := none }
        (Execution.fresh ())).1 = some (ExecError.other { msg := "nope" })) ∧
    ((RetryStep.Run { Attempts := failFail, LastAttempt := none }
        (Execution.fresh ())).2.2.ran = [1, 2] ∧
      RetryStep.Failed
        (RetryStep.Run { Attempts := failFail, LastAttempt := none } (Execution.fresh ())).1
        (RetryStep.Run { Attempts := failFail, LastAttempt := none } (Execution.fresh ())).2.1
        (RetryStep.Run { Attempts := failFail, LastAttempt := none }
          (Execution.fresh ())).2.2.state) :=
  ⟨⟨(RetryStep_Run_all_fail { Attempts := failFailError, LastAttempt := none } ()
      (by simp [failFailError]) (by decide) (by decide)).1,
    by decide⟩,
   ⟨(RetryStep_Run_all_fail { Attempts := failFail, LastAttempt := none } ()
      (by simp [failFail]) (by decide) (by decide)).1,
    (RetryStep_Run_all_fail { Attempts := failFail, LastAttempt := none } ()
      (by simp [failFail]) (by decide) (by decide)).2.2.2 (stubStep none false) rfl
      (fun _ _ _ => rfl)⟩⟩

/-- The retry loop, started on a list whose attempt `n + 1` is interrupted and
in which no earlier attempt succeeds or is interrupted, runs the attempts up
to that one, answers `ErrInterrupted`, and consults only earlier attempts. -/
theorem RetryStep_loop_interrupted {σ : Type} (rest : List (Step σ)) :
    ∀ (n position : Nat) (step : RetryStep σ) (attemptErr : Option ExecError)
      (x : Execution σ),
      (outcomes rest x.state)[n]? = some AttemptOutcome.interrupted →
      AttemptOutcome.succeeded ∉ (outcomes rest x.state).take n →
      AttemptOutcome.interrupted ∉ (outcomes rest x.state).take n →
      (RetryStep.loop rest position step attemptErr x).1 = some ExecError.ErrInterrupted ∧
        (RetryStep.loop rest position step attemptErr x).2.2.ran =
          x.ran ++ List.range' position (n + 1) ∧
        (∀ p ∈ (RetryStep.loop rest position step attemptErr x).2.2.consulted,
          p ∈ x.consulted ∨ (position ≤ p ∧ p < position + n)) := by
  induction rest with
  | nil =>
    intro n position step attemptErr x h1
    simp [outcomes] at h1
  | cons a rest ih =>
    intro n position step attemptErr x h1 h2 h3
    rcases hrun : a.Run x.state with ⟨err, s1⟩
    rcases hres : a.Result DestType.Success false s1 with ⟨⟨ok, succeeded⟩, s2⟩
    cases n with
    | zero =>
      cases err with
      | some e =>
        cases e with
        | ErrInterrupted =>
          refine ⟨by simp [RetryStep.loop, hrun], by simp [RetryStep.loop, hrun], ?_⟩
          intro p hp
          simp only [RetryStep.loop, hrun] at hp
          exact Or.inl hp
        | other e => simp [outcomes, Step.attempt, hrun] at h1
      | none =>
        by_cases hok : (ok && succeeded) = true
        · simp [outcomes, Step.attempt, hrun, hres, hok] at h1
        · simp [outcomes, Step.attempt, hrun, hres, hok] at h1
    | succ n =>
      cases err with
      | some e =>
        cases e with
        | ErrInterrupted => simp [outcomes, Step.attempt, hrun] at h3
        | other e =>
          have hstate : (a.attempt x.state).2 = s1 := by simp [Step.attempt, hrun]
          simp only [outcomes, hstate, List.getElem?_cons_succ, List.take_succ_cons,
            List.mem_cons, not_or] at h1 h2 h3
          have hrest := ih n (position + 1) { step with LastAttempt := some a }
            (some (ExecError.other e))
            { state := s1, ran := x.ran ++ [position], consulted := x.consulted }
            h1 h2.2 h3.2
          simp only [RetryStep.loop, hrun]
          refine ⟨hrest.1, ?_, ?_⟩
          · rw [hrest.2.1]
            simp [List.range'_succ]
          · intro p hp
            rcases hrest.2.2 p hp with h | h
            · exact Or.inl h
            · exact Or.inr (by omega)
      | none =>
        by_cases hok : (ok && succeeded) = true
        · simp [outcomes, Step.attempt, hrun, hres, hok] at h2
        · have hstate : (a.attempt x.state).2 = s2 := by
            simp [Step.attempt, hrun, hres, hok]
          simp only [outcomes, hstate, List.getElem?_cons_succ, List.take_succ_cons,
            List.mem_cons, not_or] at h1 h2 h3
          have hrest := ih n (position + 1) { step with LastAttempt := some a } none
            { state := s2, ran := x.ran ++ [position],
              consulted := x.consulted ++ [position] }
            h1 h2.2 h3.2
          simp only [RetryStep.loop, hrun, hres, hok, Bool.false_eq_true, if_false]
          refine ⟨hrest.1, ?_, ?_⟩
          · rw [hrest.2.1]
            simp [List.range'_succ]
          · intro p hp
            rcases hrest.2.2 p hp with h | h
            · simp only [List.mem_append, List.mem_singleton] at h
              rcases h with h | h
              · exact Or.inl h
              · exact Or.inr (by omega)
            · exact Or.inr (by omega)

/-- C22: when the retry loop runs an attempt that returns `ErrInterrupted`
(attempt `n + 1`, no earlier attempt having succeeded or been interrupted),
`RetryStep.Run` returns `ErrInterrupted` at once: the attempts run are exactly
1 to `n + 1`, no later attempt is run, and the `Result` of attempt `n + 1` is
not consulted by the loop. -/
theorem RetryStep_Run_interrupted {σ : Type} (step : RetryStep σ) (s : σ) (n : Nat)
    (hinterrupted : (outcomes step.Attempts s)[n]? = some AttemptOutcome.interrupted)
    (hnosuccess : AttemptOutcome.succeeded ∉ (outcomes step.Attempts s).take n)
    (hfirst : AttemptOutcome.interrupted ∉ (outcomes step.Attempts s).take n) :
    (step.Run (Execution.fresh s)).1 = some ExecError.ErrInterrupted ∧
      (step.Run (Execution.fresh s)).2.2.ran = List.range' 1 (n + 1) ∧
      (∀ p : Nat, n + 1 < p → p ∉ (step.Run (Execution.fresh s)).2.2.ran) ∧
      n + 1 ∉ (step.Run (Execution.fresh s)).2.2.consulted := by
  have hloop := RetryStep_loop_interrupted step.Attempts n 1 step none
    (Execution.fresh s) hinterrupted hnosuccess hfirst
  have hran : (step.Run (Execution.fresh s)).2.2.ran = List.range' 1 (n + 1) := by
    have h := hloop.2.1
    simpa [RetryStep.Run, Execution.fresh] using h
  refine ⟨hloop.1, hran, ?_, ?_⟩
  · intro p hp hmem
    rw [hran, List.mem_range'_1] at hmem
    omega
  · intro hmem
    rcases hloop.2.2 (n + 1) hmem with h | h
    · simp [Execution.fresh] at h
    · omega

/-- C22 at the attempts of retry_test.go in which attempt 1 errors and attempt
2 is interrupted: `Run` returns `ErrInterrupted`, attempts 1 and 2 are run,
attempt 3 is not, and no `Result` is consulted. -/
theorem RetryStep_Run_interrupted_witness :
    (RetryStep.Run { Attempts := errorThenInterrupted, LastAttempt := none }
        (Execution.fresh ())).1 = some ExecError.ErrInterrupted ∧
      (RetryStep.Run { Attempts := errorThenInterrupted, LastAttempt := none }
        (Execution.fresh ())).2.2.ran = [1, 2] ∧
      (RetryStep.Run { Attempts := errorThenInterrupted, LastAttempt := none }
        (Execution.fresh ())).2.2.consulted = [] :=
  ⟨(RetryStep_Run_interrupted { Attempts := errorThenInterrupted, LastAttempt := none } () 1
      (by decide) (by decide) (by decide)).1,
   (RetryStep_Run_interrupted { Attempts := errorThenInterrupted, LastAttempt := none } () 1
      (by decide) (by decide) (by decide)).2.1,
   by decide⟩

/-- The retry loop, started on a non-empty list, runs a non-empty run of
attempts from the first on and leaves the last of them as `LastAttempt`. -/
theorem RetryStep_loop_last_attempt {σ : Type} (rest : List (Step σ)) :
    ∀ (position : Nat) (step : RetryStep σ) (attemptErr : Option ExecError)
      (x : Execution σ), rest ≠ [] →
      ∃ (n : Nat) (a : Step σ), rest[n]? = some a ∧
        (RetryStep.loop rest position step attemptErr x).2.2.ran =
          x.ran ++ List.range' position (n + 1) ∧
        (RetryStep.loop rest position step attemptErr x).2.1.LastAttempt = some a := by
  induction rest with
  | nil =>
    intro position step attemptErr x hne
    exact absurd rfl hne
  | cons a rest ih =>
    intro position step attemptErr x _
    have hcontinue : ∀ (err : Option ExecError) (y : Execution σ),
        y.ran = x.ran ++ [position] →
        ∃ (n : Nat) (b : Step σ), (a :: rest)[n]? = some b ∧
          (RetryStep.loop rest (position + 1) { step with LastAttempt := some a } err y).2.2.ran =
            x.ran ++ List.range' position (n + 1) ∧
          (RetryStep.loop rest (position + 1) { step with LastAttempt := some a }
            err y).2.1.LastAttempt = some b := by
      intro err y hy
      cases hrest : rest with
      | nil =>
        exact ⟨0, a, by simp, by simp [RetryStep.loop, hy], by simp [RetryStep.loop]⟩
      | cons r rest2 =>
        obtain ⟨n, b, hb, hran, hlast⟩ := ih (position + 1)
          { step with LastAttempt := some a } err y (by simp [hrest])
        rw [hrest] at hb hran hlast
        refine ⟨n + 1, b, by simpa using hb, ?_, hlast⟩
        rw [hran, hy]
        simp [List.range'_succ]
    rcases hrun : a.Run x.state with ⟨err, s1⟩
    cases err with
    | some e =>
      cases e with
      | ErrInterrupted =>
        exact ⟨0, a, by simp, by simp [RetryStep.loop, hrun], by simp [RetryStep.loop, hrun]⟩
      | other e =>
        simp only [RetryStep.loop, hrun]
        exact hcontinue _ _ rfl
    | none =>
      rcases hres : a.Result DestType.Success false s1 with ⟨⟨ok, succeeded⟩, s2⟩
      by_cases hok : (ok && succeeded) = true
      · exact ⟨0, a, by simp, by simp [RetryStep.loop, hrun, hres, hok],
          by simp [RetryStep.loop, hrun, hres, hok]⟩
      · simp only [RetryStep.loop, hrun, hres, hok, Bool.false_eq_true, if_false]
        exact hcontinue _ _ rfl

/-- C23: after `RetryStep.Run` has run at least one attempt, `LastAttempt` is
the attempt at the last position on which `Run` was invoked, and
`RetryStep.Result` returns, for every destination, exactly what that attempt's
`Result` returns. -/
theorem RetryStep_Result_delegates {σ : Type} (step : RetryStep σ) (s : σ)
    (hran : (step.Run (Execution.fresh s)).2.2.ran ≠ []) :
    ∃ (p : Nat) (a : Step σ),
      (step.Run (Execution.fresh s)).2.2.ran.getLast? = some p ∧
      step.Attempts[p - 1]? = some a ∧
      (step.Run (Execution.fresh s)).2.1.LastAttempt = some a ∧
      ∀ (t : DestType) (v : t.Val) (s1 : σ),
        (step.Run (Execution.fresh s)).2.1.Result t v s1 = some (a.Result t v s1) := by
  have hne : step.Attempts ≠ [] := by
    intro hnil
    apply hran
    simp [RetryStep.Run, hnil, RetryStep.loop, Execution.fresh]
  obtain ⟨n, a, ha, hruns, hlast⟩ :=
    RetryStep_loop_last_attempt step.Attempts 1 step none (Execution.fresh s) hne
  have hlast2 : (step.Run (Execution.fresh s)).2.1.LastAttempt = some a := hlast
  refine ⟨n + 1, a, ?_, by simpa using ha, hlast2, ?_⟩
  · have hruns2 : (step.Run (Execution.fresh s)).2.2.ran = List.range' 1 (n + 1) := by
      simpa [RetryStep.Run, Execution.fresh] using hruns
    rw [hruns2, List.range'_concat]
    simp [Nat.add_comm]
  · intro t v s1
    simp [RetryStep.Result, hlast2]

/-- C23 at the attempts of retry_test.go in which attempt 1 errors and attempt
2 succeeds: `Result` delegates to attempt 2. -/
theorem RetryStep_Result_delegates_witness :
    ∃ (p : Nat) (a : Step Unit),
      (RetryStep.Run { Attempts := errorThenSuccess, LastAttempt := none }
        (Execution.fresh ())).2.2.ran.getLast? = some p ∧
      errorThenSuccess[p - 1]? = some a ∧
      (RetryStep.Run { Attempts := errorThenSuccess, LastAttempt := none }
        (Execution.fresh ())).2.1.LastAttempt = some a ∧
      ∀ (t : DestType) (v : t.Val) (s1 : Unit),
        (RetryStep.Run { Attempts := errorThenSuccess, LastAttempt := none }
          (Execution.fresh ())).2.1.Result t v s1 = some (a.Result t v s1) :=
  RetryStep_Result_delegates { Attempts := errorThenSuccess, LastAttempt := none } ()
    (by decide)

/-! ## The try step and the timeout step -/

/-- C24: the documentation of `TryStep.Run` promises nil whatever error the
nested step returns, and the code breaks it at `ErrInterrupted`: at a nested
step whose `Run` returns `ErrInterrupted`, `TryStep.Run` returns
`ErrInterrupted`, not nil. -/
theorem TryStep_Run_returns_interrupt :
    (interruptedTry.runStep.Run ()).1 = some ExecError.ErrInterrupted ∧
      (interruptedTry.Run ()).1 = some ExecError.ErrInterrupted ∧
      (interruptedTry.Run ()).1 ≠ none := by
  decide

/-- What `TryStep.Run` does on every nested step: it runs the nested step and
returns nil for every error of the nested step other than `ErrInterrupted`,
and when the nested step returns no error; `ErrInterrupted` is returned
unchanged. -/
theorem TryStep_Run_ignores_errors {σ : Type} (ts : TryStep σ) (s : σ) :
    (ts.Run s).2 = (ts.runStep.Run s).2 ∧
      (∀ e : GoError, (ts.runStep.Run s).1 = some (ExecError.other e) →
        (ts.Run s).1 = none) ∧
      ((ts.runStep.Run s).1 = none → (ts.Run s).1 = none) ∧
      ((ts.runStep.Run s).1 = some ExecError.ErrInterrupted →
        (ts.Run s).1 = some ExecError.ErrInterrupted) := by
  rcases hrun : ts.runStep.Run s with ⟨err, s1⟩
  cases err with
  | none => simp [TryStep.Run, hrun]
  | some e =>
    cases e with
    | ErrInterrupted => simp [TryStep.Run, hrun]
    | other e => simp [TryStep.Run, hrun]

/-- At a nested step that returns the error "nope", `TryStep.Run` returns
nil. -/
theorem TryStep_Run_ignores_errors_witness :
    (erroringTry.runStep.Run ()).1 = some (ExecError.other { msg := "nope" }) ∧
      (erroringTry.Run ()).1 = none :=
  ⟨rfl, (TryStep_Run_ignores_errors erroringTry ()).2.1 { msg := "nope" } rfl⟩

/-- C25: `TimeoutStep.Result`, asked for a `Success`, answers true and sets it to
the `Success` the nested step reports and the step did not time out; asked for
a destination of any other type it answers false, leaves the destination and
the state as they are, and does not depend on the nested step. -/
theorem TimeoutStep_Result_success_only {σ : Type} (ts : TimeoutStep σ) (s : σ) :
    (∀ v : Bool,
      ts.Result DestType.Success v s =
        ((true, ((ts.runStep.Result DestType.Success false s).1.2 && !ts.timedOut)),
          (ts.runStep.Result DestType.Success false s).2)) ∧
    (∀ (name : String) (v : String),
      ts.Result (DestType.Other name) v s = ((false, v), s)) ∧
    (∀ (name : String) (v : String) (nested : Step σ),
      TimeoutStep.Result { ts with runStep := nested } (DestType.Other name) v s =
        ts.Result (DestType.Other name) v s) := by
  refine ⟨?_, ?_, ?_⟩
  · intro v
    rcases hres : ts.runStep.Result DestType.Success false s with ⟨⟨ok, success⟩, s1⟩
    simp [TimeoutStep.Result, hres]
  · intro name v
    simp [TimeoutStep.Result]
  · intro name v nested
    simp [TimeoutStep.Result]

/-- C25 at a nested step that counts how often its `Result` is asked: for a
`Success` of a step that timed out the answer is true with `Success` false and
the nested step is asked once; for another destination the answer is false
and the nested step is not asked. -/
theorem TimeoutStep_Result_success_only_witness :
    TimeoutStep.Result { runStep := countingStep, duration := "1h", timedOut := true }
        DestType.Success true 0 = ((true, false), 1) ∧
      TimeoutStep.Result { runStep := countingStep, duration := "1h", timedOut := true }
        (DestType.Other "ExitStatus") "0" 0 = ((false, "0"), 0) :=
  ⟨(TimeoutStep_Result_success_only
      { runStep := countingStep, duration := "1h", timedOut := true } 0).1 true,
   (TimeoutStep_Result_success_only
      { runStep := countingStep, duration := "1h", timedOut := true } 0).2.1 "ExitStatus" "0"⟩

/-! ## The client and the CI server's team validation -/

/-- C27: for every team name, the error `CreateTeam` returns for an existing
team, "Team <name> already exists", has a message different from that of the
error it returns for an unexpected created/updated combination, "Unable to
provision instance". -/
theorem conflict_differs_from_unexpected_state (teamName : String) :
    (teamAlreadyExists teamName).msg ≠ unableToProvision.msg ∧
      teamAlreadyExists teamName ≠ unableToProvision := by
  have hmsg : (teamAlreadyExists teamName).msg ≠ unableToProvision.msg := by
    intro h
    have hdata := congrArg String.data h
    simp [teamAlreadyExists, unableToProvision, String.data_append] at hdata
  exact ⟨hmsg, fun h => hmsg (congrArg GoError.msg h)⟩

/-- Every create-or-update request of a `CreateTeam` call carries the team
configuration built from the configuration and the details. -/
theorem CreateTeam_sends_teamConfig {σ : Type} (srv : CIServer σ) (c : concourseClient)
    (details : Details) (s : σ) (th : TeamHandle) (config saved : Team)
    (created updated : Bool) (ce : Option GoError)
    (hsent : Event.CreateOrUpdate th config saved created updated ce ∈
      (CreateTeam srv c details (World.fresh s)).2.calls) :
    config = teamConfig c details := by
  rcases CreateTeam_cases srv c details (World.fresh s) with
    ⟨tok, e1, s1, hA⟩ | ⟨tok, s1, ms, le, s2, hA, hL, hex⟩ |
    ⟨tok, s1, le, s2, sv1, cr1, up1, ce1, s3, hA, hL, hC⟩
  · rw [CreateTeam_auth_error srv c details _ tok e1 s1 hA] at hsent
    simp [World.fresh] at hsent
  · rw [CreateTeam_existing srv c details _ tok s1 ms le s2 hA hL hex] at hsent
    simp [World.fresh] at hsent
  · rw [CreateTeam_absent srv c details _ tok s1 le s2 sv1 cr1 up1 ce1 s3 hA hL hC] at hsent
    simp [World.fresh] at hsent
    exact hsent.2.1

/-- What `validate` answers for the team configuration `CreateTeam` builds. -/
theorem validate_teamConfig (validCertificate : String → Bool) (c : concourseClient)
    (details : Details) :
    validate validCertificate (teamConfig c details) =
      if c.env.ClientID = "" ∨ c.env.ClientSecret = "" then
        Except.error { msg := "CF auth missing ClientID or ClientSecret" }
      else if c.env.AuthURL = "" ∨ c.env.TokenURL = "" ∨ c.env.CFURL = "" then
        Except.error { msg := "CF auth requires AuthURL, TokenURL and APIURL" }
      else Except.ok () := by
  by_cases h1 : c.env.ClientID = "" ∨ c.env.ClientSecret = ""
  · simp [validate, teamConfig, h1, bind, Except.bind, pure, Except.pure, throw,
      throwThe, MonadExceptOf.throw]
  · by_cases h2 : c.env.AuthURL = "" ∨ c.env.TokenURL = "" ∨ c.env.CFURL = ""
    · simp [validate, teamConfig, h1, h2, bind, Except.bind, pure, Except.pure, throw,
        throwThe, MonadExceptOf.throw]
    · simp [validate, teamConfig, h1, h2, bind, Except.bind, pure, Except.pure, throw,
        throwThe, MonadExceptOf.throw]

/-- C26: the team configuration `CreateTeam` sends passes `Server.validate`
exactly when the configured ClientID, ClientSecret, AuthURL, TokenURL and CFURL
are all non-empty; what `validate` answers is the same for the configuration
sent for any other details, and with the configuration of the test suite
(admin credentials and Concourse URL only) it is rejected. -/
theorem CreateTeam_config_validation {σ τ : Type} (validCertificate : String → Bool)
    (srv : CIServer σ) (srv2 : CIServer τ) (c : concourseClient)
    (details details2 : Details) (s : σ) (s2 : τ)
    (th th2 : TeamHandle) (config saved config2 saved2 : Team)
    (created updated created2 updated2 : Bool) (ce ce2 : Option GoError)
    (hsent : Event.CreateOrUpdate th config saved created updated ce ∈
      (CreateTeam srv c details (World.fresh s)).2.calls)
    (hsent2 : Event.CreateOrUpdate th2 config2 saved2 created2 updated2 ce2 ∈
      (CreateTeam srv2 c details2 (World.fresh s2)).2.calls) :
    (validate validCertificate config = Except.ok () ↔
      (c.env.ClientID ≠ "" ∧ c.env.ClientSecret ≠ "" ∧ c.env.AuthURL ≠ "" ∧
        c.env.TokenURL ≠ "" ∧ c.env.CFURL ≠ "")) ∧
    validate validCertificate config = validate validCertificate config2 ∧
    (∀ url : String, c.env = suiteEnv url →
      validate validCertificate config =
        Except.error { msg := "CF auth missing ClientID or ClientSecret" }) := by
  rw [CreateTeam_sends_teamConfig srv c details s th config saved created updated ce hsent,
    CreateTeam_sends_teamConfig srv2 c details2 s2 th2 config2 saved2 created2 updated2 ce2
      hsent2, validate_teamConfig, validate_teamConfig]
  refine ⟨?_, rfl, ?_⟩
  · by_cases h1 : c.env.ClientID = "" ∨ c.env.ClientSecret = ""
    · rw [if_pos h1]
      constructor
      · intro h
        cases h
      · rintro ⟨ha, hb, -⟩
        rcases h1 with h | h
        · exact absurd h ha
        · exact absurd h hb
    · rw [if_neg h1]
      by_cases h2 : c.env.AuthURL = "" ∨ c.env.TokenURL = "" ∨ c.env.CFURL = ""
      · rw [if_pos h2]
        constructor
        · intro h
          cases h
        · rintro ⟨-, -, ha, hb, hc⟩
          rcases h2 with h | h | h
          · exact absurd h ha
          · exact absurd h hb
          · exact absurd h hc
      · rw [if_neg h2]
        simp only [not_or] at h1 h2
        exact ⟨fun _ => ⟨h1.1, h1.2, h2.1, h2.2.1, h2.2.2⟩, fun _ => rfl⟩
  · intro url henv
    rw [if_pos (Or.inl (by rw [henv]; rfl))]

/-- C26 with the sample configuration, whose five values are set: the
configuration sent is accepted. -/
theorem CreateTeam_config_validation_witness :
    validate (fun _ => false) (teamConfig sampleClient acme) = Except.ok () :=
  (CreateTeam_config_validation (fun _ => false)
      (cannedServer (bearer, none) ([], some resourceNotFound) ({}, true, false, none) none)
      (cannedServer (bearer, none) ([], some resourceNotFound) ({}, true, false, none) none)
      sampleClient acme acmeTwin () ()
      ((authClient sampleClient bearer).Team "acme")
      ((authClient sampleClient bearer).Team "acme")
      (teamConfig sampleClient acme) {} (teamConfig sampleClient acmeTwin) {}
      true false true false none none (by decide) (by decide)).1.2
    ⟨by decide, by decide, by decide, by decide, by decide⟩

/-! ## Containers -/

/-- When some row does not scan, the loop of `scanRows` answers nil and nil. -/
theorem scanRows_loop_failure {ρ : Type} (scanContainer : ρ → SavedContainer × Option GoError)
    (rows : List ρ) :
    ∀ containers : List SavedContainer,
      (∃ row ∈ rows, (scanContainer row).2 ≠ none) →
      scanRows.loop scanContainer rows containers = ([], none) := by
  induction rows with
  | nil =>
    intro containers h
    simp at h
  | cons row rows ih =>
    intro containers h
    rcases hscan : scanContainer row with ⟨container, err⟩
    cases err with
    | some e => simp [scanRows.loop, hscan]
    | none =>
      simp only [scanRows.loop, hscan]
      apply ih
      obtain ⟨r, hr, hfail⟩ := h
      rcases List.mem_cons.mp hr with rfl | hr2
      · rw [hscan] at hfail
        exact absurd rfl hfail
      · exact ⟨r, hr2, hfail⟩

/-- When every row scans, the loop of `scanRows` appends the containers in row
order. -/
theorem scanRows_loop_success {ρ : Type} (scanContainer : ρ → SavedContainer × Option GoError)
    (rows : List ρ) :
    ∀ containers : List SavedContainer,
      (∀ row ∈ rows, (scanContainer row).2 = none) →
      scanRows.loop scanContainer rows containers =
        (containers ++ rows.map (fun row => (scanContainer row).1), none) := by
  induction rows with
  | nil =>
    intro containers _
    simp [scanRows.loop]
  | cons row rows ih =>
    intro containers h
    rcases hscan : scanContainer row with ⟨container, err⟩
    have herr : err = none := by
      have := h row (List.mem_cons_self row rows)
      rw [hscan] at this
      exact this
    subst herr
    simp only [scanRows.loop, hscan]
    rw [ih (containers ++ [container]) (fun r hr => h r (List.mem_cons_of_mem row hr))]
    simp [hscan]

/-- C30: `scanRows` never reports a row-scanning failure: when scanning some
row fails it returns a nil list and a nil error, whatever rows were scanned
before, which is what it returns for no rows at all; when every row scans it
returns the containers in row order, with a nil error. -/
theorem scanRows_hides_scan_failures {ρ : Type}
    (scanContainer : ρ → SavedContainer × Option GoError) (rows : List ρ) :
    ((∃ row ∈ rows, (scanContainer row).2 ≠ none) →
      scanRows scanContainer rows = ([], none) ∧
        scanRows scanContainer rows = scanRows scanContainer []) ∧
    ((∀ row ∈ rows, (scanContainer row).2 = none) →
      scanRows scanContainer rows =
        (rows.map (fun row => (scanContainer row).1), none)) := by
  constructor
  · intro h
    have hfail := scanRows_loop_failure scanContainer rows [] h
    exact ⟨hfail, by rw [scanRows, hfail]; rfl⟩
  · intro h
    have hok := scanRows_loop_success scanContainer rows [] h
    simpa [scanRows] using hok

/-- C30 at three rows of which the last does not scan, and at two rows that
both scan. -/
theorem scanRows_hides_scan_failures_witness :
    scanRows (fun row : SavedContainer × Option GoError => row)
        [(containerA, none), (containerB, none),
         (SavedContainer.zero, some { msg := "sql: Scan error" })] = ([], none) ∧
      scanRows (fun row : SavedContainer × Option GoError => row)
        [(containerA, none), (containerB, none)] = ([containerA, containerB], none) :=
  ⟨((scanRows_hides_scan_failures (fun row : SavedContainer × Option GoError => row)
      [(containerA, none), (containerB, none),
       (SavedContainer.zero, some { msg := "sql: Scan error" })]).1
      ⟨(SavedContainer.zero, some { msg := "sql: Scan error" }), by simp, by simp⟩).1,
   (scanRows_hides_scan_failures (fun row : SavedContainer × Option GoError => row)
      [(containerA, none), (containerB, none)]).2 (by simp)⟩

/-- The part of `FindContainerByIdentifier` after the switch never answers
`ErrInvalidIdentifier`. -/
theorem FindContainerByIdentifier_find_error {σ ρ : Type}
    (marshal : Option (List (String × String)) → String × Option GoError)
    (scanContainer : ρ → SavedContainer × Option GoError) (conn : Conn σ ρ)
    (id : ContainerIdentifier) (q : List String × List Param) (w : DBWorld σ) :
    (FindContainerByIdentifier.find marshal scanContainer conn id q w).1.2.2 ≠
      some DBError.ErrInvalidIdentifier := by
  unfold FindContainerByIdentifier.find
  simp only []
  split
  · simp
  · split
    · simp
    · split <;> simp

/-- C29: no identifier satisfies both `isValidCheckID` and `isValidStepID`, and
`FindContainerByIdentifier` returns `ErrInvalidIdentifier` exactly for the
identifiers that satisfy neither, in which case it issues no query and leaves
the database as it is. -/
theorem FindContainerByIdentifier_invalid_identifier {σ ρ : Type}
    (marshal : Option (List (String × String)) → String × Option GoError)
    (scanContainer : ρ → SavedContainer × Option GoError) (conn : Conn σ ρ)
    (id : ContainerIdentifier) (s : σ) :
    ¬ (isValidCheckID id = true ∧ isValidStepID id = true) ∧
    ((FindContainerByIdentifier marshal scanContainer conn id (DBWorld.fresh s)).1.2.2 =
        some DBError.ErrInvalidIdentifier ↔
      (isValidCheckID id = false ∧ isValidStepID id = false)) ∧
    ((isValidCheckID id = false ∧ isValidStepID id = false) →
      (FindContainerByIdentifier marshal scanContainer conn id (DBWorld.fresh s)).1 =
          (SavedContainer.zero, false, some DBError.ErrInvalidIdentifier) ∧
        (FindContainerByIdentifier marshal scanContainer conn id (DBWorld.fresh s)).2.queries =
          [] ∧
        (FindContainerByIdentifier marshal scanContainer conn id (DBWorld.fresh s)).2.state =
          s) := by
  have hneither : (isValidCheckID id = false ∧ isValidStepID id = false) →
      FindContainerByIdentifier marshal scanContainer conn id (DBWorld.fresh s) =
        ((SavedContainer.zero, false, some DBError.ErrInvalidIdentifier), DBWorld.fresh s) := by
    rintro ⟨h1, h2⟩
    simp [FindContainerByIdentifier, h1, h2]
  refine ⟨?_, ⟨?_, ?_⟩, ?_⟩
  · rintro ⟨hcheck, hstep⟩
    have hb0 : id.BuildID = 0 := by
      by_contra hne
      simp [isValidCheckID, hne] at hcheck
    have hb1 : id.BuildID > 0 := by
      by_contra hne
      simp [isValidStepID, hne] at hstep
    omega
  · intro herr
    by_cases hcheck : isValidCheckID id = true
    · exfalso
      simp only [FindContainerByIdentifier, hcheck, if_true] at herr
      rcases hm : marshal id.CheckSource with ⟨blob, merr⟩
      rw [hm] at herr
      cases merr with
      | some e => simp at herr
      | none =>
        simp only [] at herr
        exact FindContainerByIdentifier_find_error marshal scanContainer conn id _ _ herr
    · by_cases hstep : isValidStepID id = true
      · exfalso
        simp only [FindContainerByIdentifier, hcheck, hstep, if_true, if_false,
          Bool.false_eq_true] at herr
        exact FindContainerByIdentifier_find_error marshal scanContainer conn id _ _ herr
      · exact ⟨by simpa using hcheck, by simpa using hstep⟩
  · intro h
    rw [hneither h]
  · intro h
    rw [hneither h]
    exact ⟨rfl, rfl, rfl⟩

/-- C29 at an identifier that carries both a check type and a build: it is
neither a check nor a step identifier, and the lookup answers
`ErrInvalidIdentifier` without a query. -/
theorem FindContainerByIdentifier_invalid_identifier_witness :
    (FindContainerByIdentifier cannedMarshal (fun row => row)
        (cannedConn [(containerA, none)]) mixedIdentifier (DBWorld.fresh ())).1 =
        (SavedContainer.zero, false, some DBError.ErrInvalidIdentifier) ∧
      (FindContainerByIdentifier cannedMarshal (fun row => row)
        (cannedConn [(containerA, none)]) mixedIdentifier (DBWorld.fresh ())).2.queries = [] ∧
      (FindContainerByIdentifier cannedMarshal (fun row => row)
        (cannedConn [(containerA, none)]) stepIdentifier (DBWorld.fresh ())).1 =
        (containerA, true, none) :=
  ⟨((FindContainerByIdentifier_invalid_identifier cannedMarshal (fun row => row)
      (cannedConn [(containerA, none)]) mixedIdentifier ()).2.2 (by decide)).1,
   ((FindContainerByIdentifier_invalid_identifier cannedMarshal (fun row => row)
      (cannedConn [(containerA, none)]) mixedIdentifier ()).2.2 (by decide)).2.1,
   by decide⟩

/-! ## The handler `SetTeam` -/

/-- C28: for a `SetTeam` request of an authenticated caller whose body is
well-formed and passes authorization and validation, on a database that
answers no error: when the team exists, its four credentials are updated, no
team is created and the status is 200; when it does not exist and the caller
is an admin, the team is created under the requested name and the status is
201; when it does not exist and the caller is not an admin, the database is
only read and the status is 403. -/
theorem SetTeam_update_create_or_forbid {σ : Type} (validCertificate : String → Bool)
    (store : TeamStore σ) (r : SetTeamRequest) (s : σ) (authTeam : AuthTeam) (decoded : Team)
    (hauth : r.authTeam = some authTeam)
    (hbody : r.body = some decoded)
    (hallowed : authTeam.IsAdmin = true ∨ authTeam.IsAuthorized r.teamName = true)
    (hvalid : validate validCertificate { decoded with Name := r.teamName } = Except.ok ())
    (hstore : store.NoErrors) :
    ((store.GetTeam r.teamName s).1.2.1 = true →
      (SetTeam validCertificate store r (StoreWorld.fresh s)).1.status = 200 ∧
      (SetTeam validCertificate store r (StoreWorld.fresh s)).2.calls =
        [StoreCall.GetTeam r.teamName,
         StoreCall.UpdateBasicAuth r.teamName decoded.BasicAuth,
         StoreCall.UpdateGitHubAuth r.teamName decoded.GitHubAuth,
         StoreCall.UpdateUAAAuth r.teamName decoded.UAAAuth,
         StoreCall.UpdateGenericOAuth r.teamName decoded.GenericOAuth]) ∧
    ((store.GetTeam r.teamName s).1.2.1 = false → authTeam.IsAdmin = true →
      (SetTeam validCertificate store r (StoreWorld.fresh s)).1.status = 201 ∧
      (SetTeam validCertificate store r (StoreWorld.fresh s)).2.calls =
        [StoreCall.GetTeam r.teamName,
         StoreCall.CreateTeam { decoded with Name := r.teamName }]) ∧
    ((store.GetTeam r.teamName s).1.2.1 = false → authTeam.IsAdmin = false →
      (SetTeam validCertificate store r (StoreWorld.fresh s)).1.status = 403 ∧
      (SetTeam validCertificate store r (StoreWorld.fresh s)).2.calls =
        [StoreCall.GetTeam r.teamName]) := by
  obtain ⟨hget, hbasic, hgithub, huaa, hgeneric, hcreate⟩ := hstore
  have hguard : (!authTeam.IsAdmin && !authTeam.IsAuthorized r.teamName) = false := by
    rcases hallowed with h | h
    · simp [h]
    · simp [h]
  refine ⟨?_, ?_, ?_⟩
  · intro hfound
    simp [SetTeam, hauth, hbody, hguard, hvalid, hget, hfound, updateCredentials, hbasic,
      hgithub, huaa, hgeneric, StoreWorld.fresh]
  · intro hfound hadmin
    simp [SetTeam, hauth, hbody, hguard, hvalid, hget, hfound, hadmin, hcreate,
      StoreWorld.fresh]
  · intro hfound hadmin
    have hauthorized : authTeam.IsAuthorized r.teamName = true := by
      rcases hallowed with h | h
      · rw [hadmin] at h
        cases h
      · exact h
    simp [SetTeam, hauth, hbody, hvalid, hget, hfound, hadmin, hauthorized, StoreWorld.fresh]

/-- The canned database answers no error. -/
theorem cannedStore_no_errors (found : Bool) : (cannedStore found).NoErrors :=
  ⟨fun _ _ => rfl, fun _ _ _ => rfl, fun _ _ _ => rfl, fun _ _ _ => rfl, fun _ _ _ => rfl,
    fun _ _ => rfl⟩

/-- C28 for the team "acme": updated with status 200 when it exists, created
with status 201 for an admin when it does not, refused with status 403 for a
caller who is not an admin when it does not. -/
theorem SetTeam_update_create_or_forbid_witness :
    (SetTeam (fun _ => false) (cannedStore true) (acmeRequest false)
        (StoreWorld.fresh ())).1.status = 200 ∧
      (SetTeam (fun _ => false) (cannedStore false) (acmeRequest true)
        (StoreWorld.fresh ())).1.status = 201 ∧
      (SetTeam (fun _ => false) (cannedStore false) (acmeRequest false)
        (StoreWorld.fresh ())).1.status = 403 :=
  ⟨((SetTeam_update_create_or_forbid (fun _ => false) (cannedStore true) (acmeRequest false)
      () { IsAdmin := false, IsAuthorized := fun n => n = "acme" }
      (teamConfig sampleClient acme) rfl rfl (Or.inr (by decide)) rfl
      (cannedStore_no_errors true)).1 rfl).1,
   ((SetTeam_update_create_or_forbid (fun _ => false) (cannedStore false) (acmeRequest true)
      () { IsAdmin := true, IsAuthorized := fun n => n = "acme" }
      (teamConfig sampleClient acme) rfl rfl (Or.inl rfl) rfl
      (cannedStore_no_errors false)).2.1 rfl rfl).1,
   ((SetTeam_update_create_or_forbid (fun _ => false) (cannedStore false) (acmeRequest false)
      () { IsAdmin := false, IsAuthorized := fun n => n = "acme" }
      (teamConfig sampleClient acme) rfl rfl (Or.inr (by decide)) rfl
      (cannedStore_no_errors false)).2.2 rfl rfl).1⟩

end ConcourseBroker
